import Mathlib

/-!
Verification of the documentation-generation and endpoint-import pipeline of
the API-Documentation-Generator repository.

The embedding models:
  - JSON values (`Json`) as the universe of data flowing through importers and
    exporters.  JSON numbers are modelled as integers; no verified claim
    depends on non-integer numerics.
  - JavaScript truthiness, property access, `Object.entries`, property
    assignment, `parseInt`, and string coercion, as used by the source.
  - the exporters (`generateOpenAPISpec`, `generateMarkdownDocs`,
    `generateHTML` in controllers/documentationController.js),
  - the validator (`validateDocumentation` in the same file),
  - the Postman importer and the OpenAPI importer (routes/upload.js).
-/

/-- JSON values.  Numbers are modelled as integers (no claim in this
development depends on fractional numerics).  Objects are ordered key/value
lists, mirroring JavaScript object key insertion order. -/
inductive Json where
  | null : Json
  | bool : Bool → Json
  | num : Int → Json
  | str : String → Json
  | arr : List Json → Json
  | obj : List (String × Json) → Json
  deriving Repr

mutual

/-- Decidable equality on JSON values (written by hand because automatic
derivation does not support the nested list occurrences). -/
def Json.decEq : (a b : Json) → Decidable (a = b)
  | .null, .null => isTrue rfl
  | .bool a, .bool b =>
      match inferInstanceAs (Decidable (a = b)) with
      | isTrue h => isTrue (by rw [h])
      | isFalse h => isFalse (by intro hh; injection hh; contradiction)
  | .num a, .num b =>
      match inferInstanceAs (Decidable (a = b)) with
      | isTrue h => isTrue (by rw [h])
      | isFalse h => isFalse (by intro hh; injection hh; contradiction)
  | .str a, .str b =>
      match inferInstanceAs (Decidable (a = b)) with
      | isTrue h => isTrue (by rw [h])
      | isFalse h => isFalse (by intro hh; injection hh; contradiction)
  | .arr a, .arr b =>
      match Json.decEqList a b with
      | isTrue h => isTrue (by rw [h])
      | isFalse h => isFalse (by intro hh; injection hh; contradiction)
  | .obj a, .obj b =>
      match Json.decEqFields a b with
      | isTrue h => isTrue (by rw [h])
      | isFalse h => isFalse (by intro hh; injection hh; contradiction)
  | .null, .bool _ => isFalse (by intro h; exact Json.noConfusion h)
  | .null, .num _ => isFalse (by intro h; exact Json.noConfusion h)
  | .null, .str _ => isFalse (by intro h; exact Json.noConfusion h)
  | .null, .arr _ => isFalse (by intro h; exact Json.noConfusion h)
  | .null, .obj _ => isFalse (by intro h; exact Json.noConfusion h)
  | .bool _, .null => isFalse (by intro h; exact Json.noConfusion h)
  | .bool _, .num _ => isFalse (by intro h; exact Json.noConfusion h)
  | .bool _, .str _ => isFalse (by intro h; exact Json.noConfusion h)
  | .bool _, .arr _ => isFalse (by intro h; exact Json.noConfusion h)
  | .bool _, .obj _ => isFalse (by intro h; exact Json.noConfusion h)
  | .num _, .null => isFalse (by intro h; exact Json.noConfusion h)
  | .num _, .bool _ => isFalse (by intro h; exact Json.noConfusion h)
  | .num _, .str _ => isFalse (by intro h; exact Json.noConfusion h)
  | .num _, .arr _ => isFalse (by intro h; exact Json.noConfusion h)
  | .num _, .obj _ => isFalse (by intro h; exact Json.noConfusion h)
  | .str _, .null => isFalse (by intro h; exact Json.noConfusion h)
  | .str _, .bool _ => isFalse (by intro h; exact Json.noConfusion h)
  | .str _, .num _ => isFalse (by intro h; exact Json.noConfusion h)
  | .str _, .arr _ => isFalse (by intro h; exact Json.noConfusion h)
  | .str _, .obj _ => isFalse (by intro h; exact Json.noConfusion h)
  | .arr _, .null => isFalse (by intro h; exact Json.noConfusion h)
  | .arr _, .bool _ => isFalse (by intro h; exact Json.noConfusion h)
  | .arr _, .num _ => isFalse (by intro h; exact Json.noConfusion h)
  | .arr _, .str _ => isFalse (by intro h; exact Json.noConfusion h)
  | .arr _, .obj _ => isFalse (by intro h; exact Json.noConfusion h)
  | .obj _, .null => isFalse (by intro h; exact Json.noConfusion h)
  | .obj _, .bool _ => isFalse (by intro h; exact Json.noConfusion h)
  | .obj _, .num _ => isFalse (by intro h; exact Json.noConfusion h)
  | .obj _, .str _ => isFalse (by intro h; exact Json.noConfusion h)
  | .obj _, .arr _ => isFalse (by intro h; exact Json.noConfusion h)

/-- Decidable equality for lists of JSON values. -/
def Json.decEqList : (a b : List Json) → Decidable (a = b)
  | [], [] => isTrue rfl
  | [], _ :: _ => isFalse (by intro h; exact List.noConfusion h)
  | _ :: _, [] => isFalse (by intro h; exact List.noConfusion h)
  | x :: xs, y :: ys =>
      match Json.decEq x y with
      | isFalse h => isFalse (by intro hh; injection hh; contradiction)
      | isTrue h1 =>
          match Json.decEqList xs ys with
          | isTrue h2 => isTrue (by rw [h1, h2])
          | isFalse h => isFalse (by intro hh; injection hh; contradiction)

/-- Decidable equality for JSON object field lists. -/
def Json.decEqFields : (a b : List (String × Json)) → Decidable (a = b)
  | [], [] => isTrue rfl
  | [], _ :: _ => isFalse (by intro h; exact List.noConfusion h)
  | _ :: _, [] => isFalse (by intro h; exact List.noConfusion h)
  | (k1, v1) :: xs, (k2, v2) :: ys =>
      match inferInstanceAs (Decidable (k1 = k2)) with
      | isFalse h => isFalse (by intro hh; injection hh with h1 h2; injection h1; contradiction)
      | isTrue hk =>
          match Json.decEq v1 v2 with
          | isFalse h => isFalse (by intro hh; injection hh with h1 h2; injection h1; contradiction)
          | isTrue hv =>
              match Json.decEqFields xs ys with
              | isTrue ht => isTrue (by rw [hk, hv, ht])
              | isFalse h => isFalse (by intro hh; injection hh; contradiction)

end

instance : DecidableEq Json := Json.decEq

instance {ε α : Type} [DecidableEq ε] [DecidableEq α] : DecidableEq (Except ε α) := fun x y =>
  match x, y with
  | Except.ok a, Except.ok b =>
      if h : a = b then isTrue (by rw [h])
      else isFalse (by intro hh; injection hh; contradiction)
  | Except.error a, Except.error b =>
      if h : a = b then isTrue (by rw [h])
      else isFalse (by intro hh; injection hh; contradiction)
  | Except.ok _, Except.error _ => isFalse (by intro h; exact Except.noConfusion h)
  | Except.error _, Except.ok _ => isFalse (by intro h; exact Except.noConfusion h)

namespace Json

/-- JavaScript property access `j[k]` on a JSON value: defined only for
objects; on every other value (including arrays) it yields `none`
(= `undefined`).  (In JavaScript, access on `null`/`undefined` throws; the
importers only reach property access behind truthiness guards or inside a
try/catch that aborts the whole import, so the distinction does not affect
the verified claims.) -/
def get : Json → String → Option Json
  | obj fields, k => fields.lookup k
  | _, _ => none

/-- Property access with a default for absent properties. -/
def getD (j : Json) (k : String) (d : Json) : Json :=
  (j.get k).getD d

/-- JavaScript index access `j[0]`, `j[1]`, … : index into arrays, string
property lookup on objects, `undefined` otherwise. -/
def idx : Json → Nat → Option Json
  | arr l, i => l.get? i
  | obj fields, i => fields.lookup (toString i)
  | _, _ => none

end Json

/-- JavaScript truthiness of a JSON value: `null`, `false`, `0` and `""` are
falsy, everything else (arrays and objects included) is truthy. -/
def jsTruthy : Json → Bool
  | Json.null => false
  | Json.bool b => b
  | Json.num n => n != 0
  | Json.str s => s ≠ ""
  | Json.arr _ => true
  | Json.obj _ => true

/-- Truthiness of a possibly-absent value (`undefined` is falsy). -/
def jsTruthyO : Option Json → Bool
  | none => false
  | some j => jsTruthy j

/-- JavaScript `a || b` on JSON values. -/
def jsOr (a b : Json) : Json :=
  if jsTruthy a then a else b

/-- JavaScript `a || b` where `a` may be absent (`undefined`). -/
def jsOrElse (a : Option Json) (b : Json) : Json :=
  match a with
  | none => b
  | some v => if jsTruthy v then v else b

/-- The `Object.entries` view of a JSON value: the field list of an object, `[]` for
every non-object.  (JavaScript additionally enumerates the characters of a
string; the import loops that use `Object.entries` only consume entries
whose keys name HTTP methods or whose values are response objects, so the
collapsed cases produce the same candidates.) -/
def jsEntries : Json → List (String × Json)
  | Json.obj fields => fields
  | _ => []

/-- JavaScript property assignment `o[k] = v` on an ordered field list: the
first existing binding of `k` is overwritten in place, otherwise the new
binding is appended at the end (object key insertion order). -/
def jsAssign {α : Type} : List (String × α) → String → α → List (String × α)
  | [], k, v => [(k, v)]
  | (k', v') :: rest, k, v =>
      if k' = k then (k', v) :: rest else (k', v') :: jsAssign rest k v

/-- JavaScript string coercion of a JSON value, as performed by template
literals and `String(x)`.  Arrays and objects are approximated by their
canonical `Array.prototype.toString` / `"[object Object]"` forms (no claim
exercises these cases). -/
def jsToStr : Json → String
  | Json.null => "null"
  | Json.bool true => "true"
  | Json.bool false => "false"
  | Json.num n => toString n
  | Json.str s => s
  | Json.arr _ => ""
  | Json.obj _ => "[object Object]"

/-- String coercion of a possibly-absent value (`undefined`). -/
def jsToStrO : Option Json → String
  | none => "undefined"
  | some j => jsToStr j

/-- JavaScript `a || b` producing a string where the source coerces the
result to a string (non-string truthy values are string-coerced). -/
def jsStrOr (a : Option Json) (b : String) : String :=
  match a with
  | none => b
  | some v => if jsTruthy v then jsToStr v else b

/-- Character-list prefix test (executable helper for `strStartsWith`). -/
def listLeads : List Char → List Char → Bool
  | [], _ => true
  | _ :: _, [] => false
  | a :: as, b :: bs => a = b && listLeads as bs

/-- JavaScript `s.startsWith(pre)` over the character lists (kernel-reducible
replacement for the `String` primitive). -/
def strStartsWith (s pre : String) : Bool :=
  listLeads pre.data s.data

/-- JavaScript `toUpperCase()` (the ASCII range, which covers every verified
claim). -/
def strUpper (s : String) : String :=
  String.mk (s.data.map Char.toUpper)

/-- JavaScript `toLowerCase()` (the ASCII range, which covers every verified
claim). -/
def strLower (s : String) : String :=
  String.mk (s.data.map Char.toLower)

/-- JavaScript `trim()` (the ASCII whitespace class, which covers every
verified claim). -/
def strTrim (s : String) : String :=
  String.mk (((s.data.dropWhile Char.isWhitespace).reverse.dropWhile Char.isWhitespace).reverse)

/-- Whitespace characters skipped by JavaScript `parseInt`. -/
def isJsSpace (c : Char) : Bool :=
  c = ' ' || c = '\t' || c = '\n' || c = '\r' || c = '\x0b' || c = '\x0c'

/-- Value of a hexadecimal digit character, if it is one. -/
def hexDigitVal (c : Char) : Option Nat :=
  if '0' ≤ c ∧ c ≤ '9' then some (c.toNat - '0'.toNat)
  else if 'a' ≤ c ∧ c ≤ 'f' then some (c.toNat - 'a'.toNat + 10)
  else if 'A' ≤ c ∧ c ≤ 'F' then some (c.toNat - 'A'.toNat + 10)
  else none

/-- Accumulate the value of a maximal leading digit run; `none` if empty. -/
def takeDigitRun (digVal : Char → Option Nat) (base : Nat) (cs : List Char) : Option Nat :=
  let ds := cs.takeWhile (fun c => (digVal c).isSome)
  if ds.isEmpty then none
  else some (ds.foldl (fun acc c => acc * base + (digVal c).getD 0) 0)

/-- JavaScript `parseInt(s)` with no radix argument: skip leading whitespace,
read an optional sign, treat a `0x`/`0X` prefix as hexadecimal, otherwise
read a maximal run of decimal digits; `none` models `NaN`. -/
def jsParseInt (s : String) : Option Int :=
  let cs := s.toList.dropWhile isJsSpace
  let (sign, cs) : Int × List Char :=
    match cs with
    | '-' :: rest => (-1, rest)
    | '+' :: rest => (1, rest)
    | _ => (1, cs)
  match cs with
  | '0' :: 'x' :: rest =>
      (takeDigitRun hexDigitVal 16 rest).map (fun n => sign * n)
  | '0' :: 'X' :: rest =>
      (takeDigitRun hexDigitVal 16 rest).map (fun n => sign * n)
  | _ =>
      (takeDigitRun (fun c => if c.isDigit then some (c.toNat - '0'.toNat) else none) 10 cs).map
        (fun n => sign * n)

/-- JSON insignificant whitespace. -/
def jsonSkipWs (cs : List Char) : List Char :=
  cs.dropWhile (fun c => c = ' ' || c = '\t' || c = '\n' || c = '\r')

/-- Decode the four-hex-digit part of a `\u` escape. -/
def jsonHex4 : List Char → Option (Char × List Char)
  | a :: b :: c :: d :: rest =>
      match hexDigitVal a, hexDigitVal b, hexDigitVal c, hexDigitVal d with
      | some va, some vb, some vc, some vd =>
          some (Char.ofNat (((va * 16 + vb) * 16 + vc) * 16 + vd), rest)
      | _, _, _, _ => none
  | _ => none

/-- Body of a JSON string literal (after the opening quote): the decoded
characters and the remainder after the closing quote. -/
def jsonStrBody : List Char → Option (List Char × List Char)
  | [] => none
  | '"' :: rest => some ([], rest)
  | '\\' :: 'u' :: a :: b :: c :: d :: rest =>
      (match hexDigitVal a, hexDigitVal b, hexDigitVal c, hexDigitVal d with
       | some va, some vb, some vc, some vd =>
           (jsonStrBody rest).map
             (fun (s, r) => (Char.ofNat (((va * 16 + vb) * 16 + vc) * 16 + vd) :: s, r))
       | _, _, _, _ => none)
  | '\\' :: e :: rest =>
      (match
        (if e = '"' then some '"'
         else if e = '\\' then some '\\'
         else if e = '/' then some '/'
         else if e = 'b' then some '\x08'
         else if e = 'f' then some '\x0c'
         else if e = 'n' then some '\n'
         else if e = 'r' then some '\r'
         else if e = 't' then some '\t'
         else none) with
       | some c => (jsonStrBody rest).map (fun (s, r) => (c :: s, r))
       | none => none)
  | c :: rest =>
      if c.toNat < 32 then none
      else (jsonStrBody rest).map (fun (s, r) => (c :: s, r))

/-- Leading decimal-digit run of a JSON number literal. -/
def jsonDigits (cs : List Char) : List Char × List Char :=
  (cs.takeWhile Char.isDigit, cs.dropWhile Char.isDigit)

mutual

/-- Recursive-descent JSON value parser with explicit fuel (the fuel passed
by `jsonParse` always suffices, and exhaustion simply reports a parse
failure).  Fractional and exponent number forms are rejected: JSON numbers
are modelled as integers in this development. -/
def jsonParseVal : Nat → List Char → Option (Json × List Char)
  | 0, _ => none
  | fuel + 1, cs =>
      match jsonSkipWs cs with
      | 'n' :: 'u' :: 'l' :: 'l' :: rest => some (Json.null, rest)
      | 't' :: 'r' :: 'u' :: 'e' :: rest => some (Json.bool true, rest)
      | 'f' :: 'a' :: 'l' :: 's' :: 'e' :: rest => some (Json.bool false, rest)
      | '"' :: rest =>
          (jsonStrBody rest).map (fun (s, r) => (Json.str (String.mk s), r))
      | '[' :: rest =>
          (match jsonSkipWs rest with
           | ']' :: rest2 => some (Json.arr [], rest2)
           | _ => jsonParseArrItems fuel rest [])
      | '\x7b' :: rest =>
          (match jsonSkipWs rest with
           | '\x7d' :: rest2 => some (Json.obj [], rest2)
           | _ => jsonParseObjItems fuel rest [])
      | '-' :: rest =>
          (match jsonDigits rest with
           | ([], _) => none
           | (ds, rest2) =>
               if ds.length > 1 ∧ ds.head? = some '0' then none
               else if rest2.head? = some '.' ∨ rest2.head? = some 'e' ∨ rest2.head? = some 'E'
               then none
               else some (Json.num (-(ds.foldl (fun acc c => acc * 10 + (c.toNat - '0'.toNat)) 0 : Nat)), rest2))
      | c :: rest =>
          if c.isDigit then
            (match jsonDigits (c :: rest) with
             | ([], _) => none
             | (ds, rest2) =>
                 if ds.length > 1 ∧ ds.head? = some '0' then none
                 else if rest2.head? = some '.' ∨ rest2.head? = some 'e' ∨ rest2.head? = some 'E'
                 then none
                 else some (Json.num ((ds.foldl (fun acc c => acc * 10 + (c.toNat - '0'.toNat)) 0 : Nat) : Int), rest2))
          else none
      | [] => none

/-- Comma-separated items of a JSON array. -/
def jsonParseArrItems : Nat → List Char → List Json → Option (Json × List Char)
  | 0, _, _ => none
  | fuel + 1, cs, acc =>
      match jsonParseVal fuel cs with
      | none => none
      | some (v, rest) =>
          match jsonSkipWs rest with
          | ',' :: rest2 => jsonParseArrItems fuel rest2 (acc ++ [v])
          | ']' :: rest2 => some (Json.arr (acc ++ [v]), rest2)
          | _ => none

/-- Comma-separated members of a JSON object. -/
def jsonParseObjItems : Nat → List Char → List (String × Json) → Option (Json × List Char)
  | 0, _, _ => none
  | fuel + 1, cs, acc =>
      match jsonSkipWs cs with
      | '"' :: rest =>
          match jsonStrBody rest with
          | none => none
          | some (k, rest2) =>
              match jsonSkipWs rest2 with
              | ':' :: rest3 =>
                  (match jsonParseVal fuel rest3 with
                   | none => none
                   | some (v, rest4) =>
                       match jsonSkipWs rest4 with
                       | ',' :: rest5 => jsonParseObjItems fuel rest5 (acc ++ [(String.mk k, v)])
                       | '\x7d' :: rest5 => some (Json.obj (acc ++ [(String.mk k, v)]), rest5)
                       | _ => none)
              | _ => none
      | _ => none

end

/-- Models `JSON.parse` on a string (as used by the Postman importer on raw
request bodies): parse one JSON value and require only whitespace after it. -/
def jsonParse (s : String) : Option Json :=
  match jsonParseVal (2 * s.length + 8) s.toList with
  | some (v, rest) => if (jsonSkipWs rest).isEmpty then some v else none
  | none => none

/-- Uppercase hexadecimal digit character for a value below 16. -/
def hexUpper (n : Nat) : Char :=
  if n < 10 then Char.ofNat ('0'.toNat + n) else Char.ofNat ('A'.toNat + n - 10)

/-- Lowercase hexadecimal digit character for a value below 16. -/
def hexLower (n : Nat) : Char :=
  if n < 10 then Char.ofNat ('0'.toNat + n) else Char.ofNat ('a'.toNat + n - 10)

/-- UTF-8 encoding of one character as byte values. -/
def utf8Bytes (c : Char) : List Nat :=
  let n := c.toNat
  if n < 0x80 then [n]
  else if n < 0x800 then [0xC0 + n / 64, 0x80 + n % 64]
  else if n < 0x10000 then [0xE0 + n / 4096, 0x80 + (n / 64) % 64, 0x80 + n % 64]
  else [0xF0 + n / 262144, 0x80 + (n / 4096) % 64, 0x80 + (n / 64) % 64, 0x80 + n % 64]

/-- Percent-encoding of one byte, with uppercase hex as the URL standard
requires. -/
def pctByte (b : Nat) : List Char :=
  ['%', hexUpper (b / 16), hexUpper (b % 16)]

/-- Membership in the WHATWG path percent-encode set: C0 controls and
non-ASCII, space, quote, hash, angle brackets, question mark, backquote and
curly braces. -/
def inPathEncodeSet (c : Char) : Bool :=
  c.toNat < 0x20 || c.toNat > 0x7e || c = ' ' || c = '"' || c = '#' ||
  c = '<' || c = '>' || c = '?' || c = '`' || c = '\x7b' || c = '\x7d'

/-- Concatenation of the lists produced for each element. -/
def listFlat {α β : Type} (f : α → List β) : List α → List β
  | [] => []
  | x :: xs => f x ++ listFlat f xs

/-- Percent-encode the characters of a path segment that fall in the path
percent-encode set. -/
def encodePathSeg (s : List Char) : List Char :=
  listFlat (fun c => if inPathEncodeSet c then listFlat pctByte (utf8Bytes c) else [c]) s

/-- Split a character list at every slash or backslash (the URL parser
treats a backslash like a slash for special schemes), keeping empty
segments. -/
def splitSlashes : List Char → List (List Char)
  | [] => [[]]
  | c :: rest =>
      if c = '/' ∨ c = '\\' then [] :: splitSlashes rest
      else
        match splitSlashes rest with
        | s :: ss => (c :: s) :: ss
        | [] => [[c]]

/-- Resolve single-dot and double-dot path segments the way the URL
standard's path state does (a trailing dot segment leaves a trailing empty
segment).  The first argument accumulates output segments in reverse. -/
def resolveDotSegs : List (List Char) → List (List Char) → List (List Char)
  | acc, [] => acc.reverse
  | acc, seg :: rest =>
      if seg = ['.', '.'] then
        let acc2 := match acc with | [] => [] | _ :: t => t
        match rest with
        | [] => (([] : List Char) :: acc2).reverse
        | _ => resolveDotSegs acc2 rest
      else if seg = ['.'] then
        match rest with
        | [] => (([] : List Char) :: acc).reverse
        | _ => resolveDotSegs acc rest
      else resolveDotSegs (seg :: acc) rest

/-- Join segments with slashes. -/
def joinSlashes : List (List Char) → List Char
  | [] => []
  | [s] => s
  | s :: rest => s ++ '/' :: joinSlashes rest

/-- The `pathname` of `new URL(input)` in Node, modelled for absolute
`http://` and `https://` URLs following the WHATWG URL standard: control
and whitespace stripping, an authority section ending at the first slash,
backslash, question mark or hash, then a path whose segments have dot
segments resolved and whose characters are percent-encoded (uppercase hex)
when they fall in the path percent-encode set — in particular `\x7b` and
`\x7d` become `%7B` and `%7D`.  Inputs outside this subset (other schemes,
scheme-relative forms, empty authority) are reported as parse failures,
matching the `new URL` throw that sends the Postman importer to its
regular-expression fallback. -/
def urlPathname (input : String) : Option String :=
  let cs0 := ((input.toList.dropWhile (fun c => c.toNat ≤ 0x20)).reverse.dropWhile
      (fun c => c.toNat ≤ 0x20)).reverse
  let cs := cs0.filter (fun c => c ≠ '\t' ∧ c ≠ '\n' ∧ c ≠ '\r')
  let schemeChars := cs.takeWhile (fun c => c ≠ ':')
  let schemeLower := String.mk (schemeChars.map Char.toLower)
  if schemeLower = "http" ∨ schemeLower = "https" then
    match cs.drop schemeChars.length with
    | ':' :: '/' :: '/' :: rest =>
        let auth := rest.takeWhile (fun c => c ≠ '/' ∧ c ≠ '\\' ∧ c ≠ '?' ∧ c ≠ '#')
        if auth.isEmpty then none
        else
          match rest.drop auth.length with
          | [] => some "/"
          | '?' :: _ => some "/"
          | '#' :: _ => some "/"
          | _ :: pathRest =>
              let pathChars := pathRest.takeWhile (fun c => c ≠ '?' ∧ c ≠ '#')
              some (String.mk
                ('/' :: joinSlashes ((resolveDotSegs [] (splitSlashes pathChars)).map encodePathSeg)))
    | _ => none
  else none

/-- The Postman importer's fallback when `new URL` throws: the regular
expression match
`url.match(^(?:https?:\/\/[^\/]+)?(\/.*)$)` followed by
`path = pathMatch ? pathMatch[1] : "/" + url` (routes/upload.js lines
137-139). -/
def postmanPathFallback (url : String) : String :=
  if strStartsWith url "/" then url
  else
    let tryScheme (pre : String) : Option String :=
      if strStartsWith url pre then
        let rest := (url.toList.drop pre.length)
        let host := rest.takeWhile (fun c => c ≠ '/')
        if host.isEmpty then none
        else
          match rest.drop host.length with
          | [] => none
          | tail => some (String.mk tail)
      else none
    match tryScheme "http://" with
    | some p => p
    | none =>
        match tryScheme "https://" with
        | some p => p
        | none => "/" ++ url

mutual

/-- Number of matches of the validator's path-parameter pattern
`/{([^}]+)}/g` while scanning for an opening brace.  The scan
state machine is equivalent to the regular expression's global loop: a
brace followed by one or more non-closing-brace characters and a closing
brace counts one match and the scan resumes after the closing brace; a
brace pair with an empty body matches nothing (the engine resumes at the
closing brace, which cannot begin a match, so resuming after it is the
same); an opening brace never closed means no closing brace remains at
all, so no further match is possible either way. -/
def countBraceScan : List Char → Nat
  | [] => 0
  | c :: rest => if c = '{' then countBraceBody false rest else countBraceScan rest

/-- Inside a potential match: `seen` records whether at least one
non-closing-brace character has been read since the opening brace. -/
def countBraceBody (seen : Bool) : List Char → Nat
  | [] => 0
  | c :: rest =>
      if c = '}' then (if seen then 1 else 0) + countBraceScan rest
      else countBraceBody true rest

end

/-- Number of matches of `path.match(/{([^}]+)}/g) || []`
(controllers/documentationController.js line 646). -/
def countBraceParams (cs : List Char) : Nat := countBraceScan cs

/-- Indentation string of a given width. -/
def stringifySpaces (n : Nat) : String := String.mk (List.replicate n ' ')

/-- Escape of one character inside a JSON string literal, as
`JSON.stringify` performs it. -/
def jsonEscapeChar (c : Char) : String :=
  if c = '"' then "\\\""
  else if c = '\\' then "\\\\"
  else if c = '\x08' then "\\b"
  else if c = '\t' then "\\t"
  else if c = '\n' then "\\n"
  else if c = '\x0c' then "\\f"
  else if c = '\r' then "\\r"
  else if c.toNat < 32 then
    String.mk ['\\', 'u', '0', '0', hexLower (c.toNat / 16), hexLower (c.toNat % 16)]
  else String.mk [c]

/-- The quoted JSON form of a string. -/
def jsonQuote (s : String) : String :=
  "\"" ++ String.join (s.toList.map jsonEscapeChar) ++ "\""

/-- `JSON.stringify(value, null, 2)` with explicit fuel for the recursion
depth (always sufficient at the call below). -/
def jsonStringifyF : Nat → Nat → Json → String
  | 0, _, _ => ""
  | fuel + 1, ind, j =>
      match j with
      | Json.null => "null"
      | Json.bool true => "true"
      | Json.bool false => "false"
      | Json.num n => toString n
      | Json.str s => jsonQuote s
      | Json.arr [] => "[]"
      | Json.arr l =>
          "[\n" ++
            String.intercalate ",\n"
              (l.map (fun x => stringifySpaces (ind + 2) ++ jsonStringifyF fuel (ind + 2) x)) ++
            "\n" ++ stringifySpaces ind ++ "]"
      | Json.obj [] => "\x7b\x7d"
      | Json.obj fs =>
          "\x7b\n" ++
            String.intercalate ",\n"
              (fs.map (fun kv =>
                stringifySpaces (ind + 2) ++ jsonQuote kv.1 ++ ": " ++
                  jsonStringifyF fuel (ind + 2) kv.2)) ++
            "\n" ++ stringifySpaces ind ++ "\x7d"

mutual

/-- Nesting depth of a JSON value (computable fuel bound for the
stringifier and the Postman item traversal). -/
def jsonDepth : Json → Nat
  | Json.arr l => 1 + jsonDepthList l
  | Json.obj fs => 1 + jsonDepthFields fs
  | _ => 1

/-- Maximal depth over a list of JSON values. -/
def jsonDepthList : List Json → Nat
  | [] => 0
  | x :: xs => max (jsonDepth x) (jsonDepthList xs)

/-- Maximal depth over a JSON object field list. -/
def jsonDepthFields : List (String × Json) → Nat
  | [] => 0
  | (_, v) :: xs => max (jsonDepth v) (jsonDepthFields xs)

end

/-- Pretty-printed JSON with two-space indentation
(`JSON.stringify(x, null, 2)` as used by the Markdown and HTML exporters). -/
def jsonStringify2 (j : Json) : String := jsonStringifyF (jsonDepth j) 0 j

/-- Truthiness of an optional string field of a Mongoose document (absent or
empty is falsy). -/
def strTruthyO : Option String → Bool
  | some s => s ≠ ""
  | none => false

/-- JavaScript `field || default` for an optional string field. -/
def strOrD (o : Option String) (d : String) : String :=
  match o with
  | some s => if s ≠ "" then s else d
  | none => d

/-- A parameter of an internal Endpoint record (the Mongoose parameter
sub-schema as consumed by the exporters and the validator).  The `in` field
is called `inLoc` because `in` is reserved in Lean. -/
structure EParam where
  name : String
  type : String
  inLoc : String
  required : Bool
  description : String
  exampleVal : Option Json
  deriving DecidableEq, Repr

/-- The request body of an internal Endpoint record. -/
structure EReqBody where
  contentType : String
  required : Bool
  description : String
  schema : Option Json
  exampleVal : Option Json
  deriving DecidableEq, Repr

/-- A response of an internal Endpoint record. -/
structure EResp where
  statusCode : Int
  description : String
  schema : Option Json
  exampleVal : Option Json
  deriving DecidableEq, Repr

/-- A security requirement of an internal Endpoint record (`sec.name` is the
only field the exporter reads). -/
structure ESec where
  name : String
  deriving DecidableEq, Repr

/-- The internal Endpoint record (models/Endpoint.js) as read by the
exporters and the validator.  `idStr` is the document id interpolated by the
HTML exporter's anchors. -/
structure Endpoint where
  idStr : String
  method : String
  path : String
  summary : String
  description : String
  operationId : Option String
  tags : List String
  deprecated : Bool
  parameters : List EParam
  requestBody : Option EReqBody
  security : List ESec
  responses : List EResp
  deriving DecidableEq, Repr

/-- The internal Project record (models/Project.js) as read by the
exporters and the validator. -/
structure Project where
  name : String
  description : Option String
  baseUrl : Option String
  version : Option String
  isPublic : Bool
  deriving DecidableEq, Repr

/-- The `example` sub-field of a parameter schema in the OpenAPI exporter:
an `undefined` example leaves no key behind (as JSON serialization of the
built object would drop it). -/
def exampleField (o : Option Json) : List (String × Json) :=
  match o with
  | some v => [("example", v)]
  | none => []

/-- One exported OpenAPI parameter object
(controllers/documentationController.js lines 78-89). -/
def exportParam (p : EParam) : Json :=
  Json.obj
    [("name", Json.str p.name),
     ("in", Json.str p.inLoc),
     ("required", Json.bool p.required),
     ("description", Json.str p.description),
     ("schema", Json.obj ([("type", Json.str p.type)] ++ exampleField p.exampleVal))]

/-- One exported OpenAPI response value
(controllers/documentationController.js lines 108-118). -/
def exportResponse (r : EResp) : Json :=
  Json.obj
    [("description", Json.str r.description),
     ("content", Json.obj
       [("application/json", Json.obj
         ([("schema", jsOrElse r.schema (Json.obj [("type", Json.str "object")]))] ++
          exampleField r.exampleVal))])]

/-- The operation object built for one endpoint by `generateOpenAPISpec`
(controllers/documentationController.js lines 57-133): base fields, the
parameter list, a request body only for POST/PUT/PATCH, the responses keyed
by `String(statusCode)` with a default `200 / Successful response` when the
endpoint has none, and a security list when present.  An absent
`operationId` leaves no key (as serialization would drop the `undefined`). -/
def buildOperation (e : Endpoint) : Json :=
  let method := strLower e.method
  let responsesObj : Json :=
    if e.responses.length > 0 then
      Json.obj (e.responses.foldl
        (fun acc r => jsAssign acc (toString r.statusCode) (exportResponse r)) [])
    else
      Json.obj [("200", Json.obj [("description", Json.str "Successful response")])]
  let baseFields : List (String × Json) :=
    [("summary", Json.str e.summary),
     ("description", Json.str e.description)] ++
    (match e.operationId with
     | some oid => [("operationId", Json.str oid)]
     | none => []) ++
    [("tags", Json.arr (e.tags.map Json.str)),
     ("deprecated", Json.bool e.deprecated),
     ("parameters", Json.arr (e.parameters.map exportParam)),
     ("responses", responsesObj)]
  let reqBodyFields : List (String × Json) :=
    match e.requestBody with
    | some rb =>
        if ["post", "put", "patch"].contains method then
          [("requestBody", Json.obj
            [("description", Json.str rb.description),
             ("required", Json.bool rb.required),
             ("content", Json.obj
               [(rb.contentType, Json.obj
                 ([("schema", jsOrElse rb.schema (Json.obj [("type", Json.str "object")]))] ++
                  exampleField rb.exampleVal))])])]
        else []
    | none => []
  let secFields : List (String × Json) :=
    if e.security.length > 0 then
      [("security", Json.arr (e.security.map (fun s => Json.obj [(s.name, Json.arr [])])))]
    else []
  Json.obj (baseFields ++ reqBodyFields ++ secFields)

/-- First-seen-order deduplication, as `[...new Set(list)]` produces. -/
def jsSetDedup (l : List String) : List String :=
  l.foldl (fun acc t => if acc.contains t then acc else acc ++ [t]) []

/-- The `paths` object accumulated by `generateOpenAPISpec`: for each
endpoint in order, create the path key if absent, then assign the
lowercased method key to the endpoint's operation object
(controllers/documentationController.js lines 57-134). -/
def buildPaths (endpoints : List Endpoint) : List (String × Json) :=
  (endpoints.foldl
    (fun (acc : List (String × List (String × Json))) e =>
      let cur := (acc.lookup e.path).getD []
      jsAssign acc e.path (jsAssign cur (strLower e.method) (buildOperation e)))
    []).map (fun kv => (kv.1, Json.obj kv.2))

/-- The OpenAPI document built by `generateOpenAPISpec`
(controllers/documentationController.js lines 27-134), with the
caller-supplied `version` query parameter defaulting to "3.0.0". -/
def generateOpenAPISpecCore (p : Project) (endpoints : List Endpoint) (version : String) : Json :=
  let allTags := jsSetDedup (listFlat (fun e => e.tags) endpoints)
  Json.obj
    [("openapi", Json.str version),
     ("info", Json.obj
       [("title", Json.str p.name),
        ("description", Json.str (strOrD p.description ("API documentation for " ++ p.name))),
        ("version", Json.str (strOrD p.version "1.0.0")),
        ("contact", Json.obj [("name", Json.str "API Support")])]),
     ("servers", Json.arr
       [Json.obj
         [("url", Json.str (strOrD p.baseUrl "https://api.example.com")),
          ("description", Json.str "Production server")]]),
     ("paths", Json.obj (buildPaths endpoints)),
     ("components", Json.obj
       [("schemas", Json.obj []), ("securitySchemes", Json.obj [])]),
     ("tags", Json.arr (allTags.map (fun t => Json.obj [("name", Json.str t)])))]

/-- The payload a generation handler responds with: the generated content
plus a `meta` wrapper.  The handler's `new Date().toISOString()` is the
explicit `now` argument. -/
structure GenOut (α : Type) where
  content : α
  meta : Json
  deriving Repr

/-- The OpenAPI generation response (`generateOpenAPISpec`): the
specification plus `meta.generatedAt` set from the clock at response time
(controllers/documentationController.js lines 136-147). -/
def openAPIGenerate (p : Project) (es : List Endpoint) (version now : String) : GenOut Json :=
  { content := generateOpenAPISpecCore p es version,
    meta := Json.obj
      [("generatedAt", Json.str now),
       ("endpointCount", Json.num (es.length : Int)),
       ("version", Json.str version)] }

/-- The effective tag list of an endpoint for documentation grouping:
`endpoint.tags && endpoint.tags.length > 0 ? endpoint.tags : ["General"]`
(controllers/documentationController.js lines 183-184). -/
def effTags (e : Endpoint) : List String :=
  if e.tags.length > 0 then e.tags else ["General"]

/-- Push one endpoint onto the group of one tag: the first existing group
with that key gains the endpoint at its end, otherwise a new group is
appended (JavaScript object key insertion plus `push`). -/
def pushToGroup : List (String × List Endpoint) → String → Endpoint → List (String × List Endpoint)
  | [], t, e => [(t, [e])]
  | (k, v) :: rest, t, e =>
      if k = t then (k, v ++ [e]) :: rest
      else (k, v) :: pushToGroup rest t e

/-- The `groupedEndpoints` map built by `generateMarkdownDocs`
(controllers/documentationController.js lines 180-189): every endpoint is
pushed onto the group of each of its effective tags, in input order. -/
def groupEndpoints (es : List Endpoint) : List (String × List Endpoint) :=
  es.foldl (fun acc e => (effTags e).foldl (fun a t => pushToGroup a t e) acc) []

/-- The list of endpoints grouped under one tag (empty when the tag has no
group). -/
def groupOf (t : String) (es : List Endpoint) : List Endpoint :=
  ((groupEndpoints es).lookup t).getD []

/-- Dropping a prefix by a predicate never lengthens a list (termination
helper for `wsRunsToDash`). -/
def dropWhile_length_le (p : Char → Bool) :
    ∀ (l : List Char), (l.dropWhile p).length ≤ l.length := by
  intro l
  induction l with
  | nil => simp [List.dropWhile]
  | cons c rest ih =>
      rw [List.dropWhile]
      by_cases hc : p c
      · simp only [hc]
        simp
        omega
      · simp only [hc]
        simp

/-- Replace runs of whitespace by single dashes
(`replace(/\s+/g, "-")`; the ASCII whitespace class suffices for the
verified claims). -/
def wsRunsToDash : List Char → List Char
  | [] => []
  | c :: rest =>
      if isJsSpace c then '-' :: wsRunsToDash (rest.dropWhile isJsSpace)
      else c :: wsRunsToDash rest
termination_by cs => cs.length
decreasing_by
  · have : (rest.dropWhile isJsSpace).length ≤ rest.length := dropWhile_length_le isJsSpace rest
    simp
    omega
  · simp

/-- The table-of-contents anchor of a tag:
`tag.toLowerCase().replace(/\s+/g, "-")`. -/
def tagAnchor (t : String) : String :=
  String.mk (wsRunsToDash (strLower t).data)

/-- The per-endpoint anchor slug of a path:
`path.replace(/[^a-zA-Z0-9]/g, "-").toLowerCase()`. -/
def pathSlug (path : String) : String :=
  String.mk (path.toList.map (fun c => if c.isAlphanum then c.toLower else '-'))

/-- The emoji chosen for a method by `generateMarkdownDocs`
(`methodColors[endpoint.method] || "⚪"`). -/
def methodEmoji (m : String) : String :=
  if m = "GET" then "🟢"
  else if m = "POST" then "🔵"
  else if m = "PUT" then "🟠"
  else if m = "DELETE" then "🔴"
  else if m = "PATCH" then "🟡"
  else "⚪"

/-- The Markdown block rendered for one endpoint by `generateMarkdownDocs`
(controllers/documentationController.js lines 208-280). -/
def renderEndpointMd (e : Endpoint) : String :=
  "### " ++ methodEmoji e.method ++ " " ++ e.method ++ " " ++ e.path ++ "\n\n" ++
  e.summary ++ "\n\n" ++
  (if e.description ≠ "" then e.description ++ "\n\n" else "") ++
  (if e.parameters.length > 0 then
     "#### Parameters\n\n" ++
     "| Name | Type | In | Required | Description |\n" ++
     "|------|------|----|---------|--------------|\n" ++
     String.join (e.parameters.map (fun p =>
       "| " ++ p.name ++ " | " ++ p.type ++ " | " ++ p.inLoc ++ " | " ++
       (if p.required then "Yes" else "No") ++ " | " ++
       (if p.description ≠ "" then p.description else "-") ++ " |\n")) ++
     "\n"
   else "") ++
  (match e.requestBody with
   | some rb =>
       if ["POST", "PUT", "PATCH"].contains e.method then
         "#### Request Body\n\n" ++
         "**Content Type:** " ++ rb.contentType ++ "\n\n" ++
         (match rb.exampleVal with
          | some v =>
              if jsTruthy v then
                "**Example:**\n\n" ++ "```json\n" ++ jsonStringify2 v ++ "\n```\n\n"
              else ""
          | none => "")
       else ""
   | none => "") ++
  (if e.responses.length > 0 then
     "#### Responses\n\n" ++
     String.join (e.responses.map (fun r =>
       "**" ++ toString r.statusCode ++ "** - " ++ r.description ++ "\n\n" ++
       (match r.exampleVal with
        | some v =>
            if jsTruthy v then "```json\n" ++ jsonStringify2 v ++ "\n```\n\n"
            else ""
        | none => "")))
   else "") ++
  (if e.deprecated then
     "> ⚠️ **Deprecated:** This endpoint is deprecated and may be removed in future versions.\n\n"
   else "") ++
  "---\n\n"

/-- The Markdown document built by `generateMarkdownDocs`
(controllers/documentationController.js lines 167-281): header, version and
base URL lines, a table of contents over the grouped endpoints, then one
section per group rendered from the same grouping pass. -/
def generateMarkdownCore (p : Project) (es : List Endpoint) : String :=
  let groups := groupEndpoints es
  "# " ++ p.name ++ "\n\n" ++
  (if strTruthyO p.description then (p.description.getD "") ++ "\n\n" else "") ++
  "**Version:** " ++ strOrD p.version "1.0.0" ++ "\n" ++
  "**Base URL:** " ++ strOrD p.baseUrl "https://api.example.com" ++ "\n\n" ++
  "## Table of Contents\n\n" ++
  String.join (groups.map (fun g =>
    "- [" ++ g.1 ++ "](#" ++ tagAnchor g.1 ++ ")\n" ++
    String.join (g.2.map (fun e =>
      "  - [" ++ e.method ++ " " ++ e.path ++ "](#" ++
      strLower e.method ++ "-" ++ pathSlug e.path ++ ")\n")))) ++
  "\n" ++
  String.join (groups.map (fun g =>
    "## " ++ g.1 ++ "\n\n" ++ String.join (g.2.map renderEndpointMd)))

/-- The Markdown generation response (`generateMarkdownDocs` lines 283-294):
the document plus `meta` carrying the response-time clock and `wordCount`
from `markdown.split(" ").length`. -/
def markdownGenerate (p : Project) (es : List Endpoint) (now : String) : GenOut String :=
  let markdown := generateMarkdownCore p es
  { content := markdown,
    meta := Json.obj
      [("generatedAt", Json.str now),
       ("endpointCount", Json.num (es.length : Int)),
       ("wordCount", Json.num ((markdown.splitOn " ").length : Int))] }

/-- Issue and warning messages contributed by one endpoint in
`validateDocumentation` (controllers/documentationController.js lines
624-666), in the push order of the source. -/
def endpointChecks (e : Endpoint) : List String × List String :=
  let ep := e.method ++ " " ++ e.path
  let issues :=
    (if e.summary = "" ∨ strTrim e.summary = "" then [ep ++ ": Summary is missing"] else []) ++
    (if e.responses.length = 0 then [ep ++ ": No responses defined"] else []) ++
    (if countBraceParams e.path.toList ≠
        (e.parameters.filter (fun p => p.inLoc = "path")).length then
       [ep ++ ": Path parameter count mismatch"]
     else [])
  let warnings :=
    (if e.description = "" then [ep ++ ": Description is missing"] else []) ++
    (if e.tags.length = 0 then [ep ++ ": No tags assigned"] else []) ++
    (match e.requestBody with
     | some rb => if ¬ jsTruthyO rb.exampleVal then [ep ++ ": Request body example is missing"] else []
     | none => []) ++
    (e.responses.filterMap (fun r =>
      if ¬ jsTruthyO r.exampleVal then
        some (ep ++ ": Response " ++ toString r.statusCode ++ " example is missing")
      else none))
  (issues, warnings)

/-- The result of `validateDocumentation`. -/
structure ValidationOut where
  score : Int
  status : String
  issues : List String
  warnings : List String
  statistics : Json
  deriving Repr

/-- The status string the validator reports for a score
(controllers/documentationController.js lines 675-682). -/
def scoreStatus (score : Int) : String :=
  if score ≥ 80 then "excellent"
  else if score ≥ 60 then "good"
  else if score ≥ 40 then "fair"
  else "poor"

/-- The validator `validateDocumentation`
(controllers/documentationController.js lines 597-695): project warnings,
per-endpoint issues and warnings, the score
`Math.max(0, 100 - issues.length * 10 - warnings.length * 2)` and the
threshold-based status string. -/
def validateDocs (p : Project) (es : List Endpoint) : ValidationOut :=
  let projWarnings :=
    (if ¬ strTruthyO p.description then ["Project description is missing"] else []) ++
    (if ¬ strTruthyO p.baseUrl then ["Base URL is not set"] else [])
  let issues := listFlat (fun e => (endpointChecks e).1) es
  let warnings := projWarnings ++ listFlat (fun e => (endpointChecks e).2) es
  let score : Int := max 0 (100 - (issues.length : Int) * 10 - (warnings.length : Int) * 2)
  { score := score,
    status := scoreStatus score,
    issues := issues,
    warnings := warnings,
    statistics := Json.obj
      [("totalEndpoints", Json.num (es.length : Int)),
       ("endpointsWithDescription", Json.num ((es.filter (fun e => e.description ≠ "")).length : Int)),
       ("endpointsWithExamples", Json.num ((es.filter (fun e =>
          (match e.requestBody with
           | some rb => jsTruthyO rb.exampleVal
           | none => false) ||
          e.responses.any (fun r => jsTruthyO r.exampleVal))).length : Int)),
       ("endpointsWithTags", Json.num ((es.filter (fun e => e.tags.length > 0)).length : Int))] }

/-- The HTML table rows for an endpoint's parameters
(controllers/documentationController.js lines 395-409). -/
def htmlParamRows (ps : List EParam) : String :=
  String.join (ps.map (fun p =>
    "\n                                    <tr>\n" ++
    "                                        <td>" ++ p.name ++ "</td>\n" ++
    "                                        <td>" ++ p.type ++ "</td>\n" ++
    "                                        <td>" ++ p.inLoc ++ "</td>\n" ++
    "                                        <td>" ++ (if p.required then "Yes" else "No") ++ "</td>\n" ++
    "                                        <td>" ++ (if p.description ≠ "" then p.description else "-") ++ "</td>\n" ++
    "                                    </tr>\n                                "))

/-- The HTML blocks for an endpoint's responses
(controllers/documentationController.js lines 416-442). -/
def htmlResponseBlocks (rs : List EResp) : String :=
  String.join (rs.map (fun r =>
    "\n                            <h4>" ++ toString r.statusCode ++ " - " ++ r.description ++ "</h4>\n" ++
    (match r.exampleVal with
     | some v =>
         if jsTruthy v then
           "                                <pre class=\"code\">" ++ jsonStringify2 v ++ "</pre>\n                            "
         else ""
     | none => "") ++
    "                        "))

/-- The HTML `div` rendered for one endpoint by `generateHTML`
(controllers/documentationController.js lines 369-446). -/
def htmlEndpointDiv (e : Endpoint) : String :=
  "\n                <div class=\"endpoint\" id=\"" ++ e.idStr ++ "\">\n" ++
  "                    <h2>\n" ++
  "                        <span class=\"method " ++ strLower e.method ++ "\">" ++ e.method ++ "</span>\n" ++
  "                        " ++ e.path ++ "\n" ++
  "                    </h2>\n" ++
  "                    <p><strong>" ++ e.summary ++ "</strong></p>\n" ++
  "                    " ++ (if e.description ≠ "" then "<p>" ++ e.description ++ "</p>" else "") ++ "\n" ++
  "                    " ++
  (if e.parameters.length > 0 then
     "\n                        <h3>Parameters</h3>\n" ++
     "                        <table>\n" ++
     "                            <thead>\n" ++
     "                                <tr><th>Name</th><th>Type</th><th>In</th><th>Required</th><th>Description</th></tr>\n" ++
     "                            </thead>\n" ++
     "                            <tbody>\n                                " ++
     htmlParamRows e.parameters ++
     "\n                            </tbody>\n" ++
     "                        </table>\n                    "
   else "") ++
  "\n                    " ++
  (if e.responses.length > 0 then
     "\n                        <h3>Responses</h3>\n                        " ++
     htmlResponseBlocks e.responses ++ "\n                    "
   else "") ++
  "\n                </div>\n            "

/-- The HTML document built by `generateHTML`
(controllers/documentationController.js lines 315-451): one self-contained
page with an inline style block, a sidebar of per-endpoint anchors on the
document ids, a header from the project fields, and one endpoint `div` per
endpoint. -/
def generateHTMLCore (p : Project) (es : List Endpoint) : String :=
  "\n<!DOCTYPE html>\n<html lang=\"en\">\n<head>\n" ++
  "    <meta charset=\"UTF-8\">\n" ++
  "    <meta name=\"viewport\" content=\"width=device-width, initial-scale=1.0\">\n" ++
  "    <title>" ++ p.name ++ " - API Documentation</title>\n" ++
  "    <style>\n" ++
  "        * \x7b margin: 0; padding: 0; box-sizing: border-box; \x7d\n" ++
  "        body \x7b font-family: \x27Segoe UI\x27, Tahoma, Geneva, Verdana, sans-serif; line-height: 1.6; color: #333; \x7d\n" ++
  "        .container \x7b max-width: 1200px; margin: 0 auto; padding: 20px; \x7d\n" ++
  "        .header \x7b background: #2563eb; color: white; padding: 2rem; margin-bottom: 2rem; \x7d\n" ++
  "        .header h1 \x7b font-size: 2.5rem; margin-bottom: 0.5rem; \x7d\n" ++
  "        .header p \x7b font-size: 1.1rem; opacity: 0.9; \x7d\n" ++
  "        .sidebar \x7b position: fixed; left: 0; top: 0; width: 300px; height: 100vh; background: #f8f9fa; overflow-y: auto; padding: 1rem; \x7d\n" ++
  "        .content \x7b margin-left: 320px; \x7d\n" ++
  "        .endpoint \x7b margin-bottom: 3rem; padding: 1.5rem; border: 1px solid #e5e7eb; border-radius: 8px; \x7d\n" ++
  "        .method \x7b display: inline-block; padding: 0.25rem 0.75rem; border-radius: 4px; font-weight: bold; color: white; margin-right: 1rem; \x7d\n" ++
  "        .method.get \x7b background: #10b981; \x7d\n" ++
  "        .method.post \x7b background: #3b82f6; \x7d\n" ++
  "        .method.put \x7b background: #f59e0b; \x7d\n" ++
  "        .method.delete \x7b background: #ef4444; \x7d\n" ++
  "        .method.patch \x7b background: #8b5cf6; \x7d\n" ++
  "        .code \x7b background: #f3f4f6; padding: 1rem; border-radius: 4px; overflow-x: auto; \x7d\n" ++
  "        table \x7b width: 100%; border-collapse: collapse; margin: 1rem 0; \x7d\n" ++
  "        th, td \x7b padding: 0.75rem; text-align: left; border-bottom: 1px solid #e5e7eb; \x7d\n" ++
  "        th \x7b background: #f9fafb; font-weight: 600; \x7d\n" ++
  "    </style>\n</head>\n<body>\n" ++
  "    <div class=\"sidebar\">\n" ++
  "        <h3>API Documentation</h3>\n" ++
  "        <ul>\n            " ++
  String.join (es.map (fun ep =>
    "\n                <li><a href=\"#" ++ ep.idStr ++ "\">" ++ ep.method ++ " " ++ ep.path ++ "</a></li>\n            ")) ++
  "\n        </ul>\n    </div>\n    \n" ++
  "    <div class=\"content\">\n" ++
  "        <div class=\"header\">\n" ++
  "            <h1>" ++ p.name ++ "</h1>\n" ++
  "            <p>" ++ strOrD p.description "API Documentation" ++ "</p>\n" ++
  "            <p><strong>Version:</strong> " ++ strOrD p.version "1.0.0" ++ "</p>\n" ++
  "            <p><strong>Base URL:</strong> " ++ strOrD p.baseUrl "https://api.example.com" ++ "</p>\n" ++
  "        </div>\n        \n" ++
  "        <div class=\"container\">\n            " ++
  String.join (es.map htmlEndpointDiv) ++
  "\n        </div>\n    </div>\n</body>\n</html>\n  "

/-- The HTML generation response (`generateHTML` lines 453-465): the
document plus `meta` carrying the response-time clock and the accepted but
otherwise inert `theme` query parameter. -/
def htmlGenerate (p : Project) (es : List Endpoint) (theme now : String) : GenOut String :=
  { content := generateHTMLCore p es,
    meta := Json.obj
      [("generatedAt", Json.str now),
       ("endpointCount", Json.num (es.length : Int)),
       ("theme", Json.str theme)] }

/-- Failure modes of the importers, named after the `AppError` messages the
upload route throws: `invalidFormat` is "Invalid Postman collection format"
(and, for the OpenAPI route, "Invalid JSON or YAML format"),
`missingPaths` is "Invalid OpenAPI specification: missing paths", and
`parseFailure` is the catch-all "Failed to parse …" raised when parsing or
traversal throws. -/
inductive ImportErr where
  | invalidFormat : ImportErr
  | missingPaths : ImportErr
  | parseFailure : ImportErr
  deriving DecidableEq, Repr

/-- A parameter record produced by the Postman importer
(routes/upload.js lines 169-200).  `name` and `description` keep the raw
JSON values the source stores; `exampleVal` is `param.value`/`header.value`
which may be absent. -/
structure PParam where
  name : Json
  type : String
  inLoc : String
  required : Bool
  description : Json
  exampleVal : Option Json
  deriving DecidableEq, Repr

/-- A request body record produced by the Postman importer
(routes/upload.js lines 234-238).  An `undefined` example is collapsed to
`null`, which no verified claim distinguishes. -/
structure PReqBody where
  contentType : String
  required : Bool
  exampleVal : Json
  deriving DecidableEq, Repr

/-- A response record produced by the Postman importer (always the default
200 response, routes/upload.js lines 155-160). -/
structure PResp where
  statusCode : Int
  description : String
  deriving DecidableEq, Repr

/-- An endpoint candidate produced by the Postman importer
(routes/upload.js lines 147-161). -/
structure PCandidate where
  method : String
  path : String
  summary : String
  description : Json
  tags : List String
  parameters : List PParam
  requestBody : Option PReqBody
  responses : List PResp
  deriving DecidableEq, Repr

/-- Elements of a JSON array; `[]` for any other value.  (A truthy
non-array value at a `forEach` site would throw in JavaScript and abort the
whole import; no verified claim depends on that case.) -/
def jsArrD : Json → List Json
  | Json.arr l => l
  | _ => []

/-- The query parameter built from one entry of `request.url.query`
(routes/upload.js lines 169-180): only entries with a truthy `key` are
kept, and every record has type "string" and `required: false`. -/
def mkQueryParam (pj : Json) : Option PParam :=
  if jsTruthyO (pj.get "key") then
    some
      { name := pj.getD "key" Json.null,
        type := "string",
        inLoc := "query",
        required := false,
        description := jsOrElse (pj.get "description") (Json.str ""),
        exampleVal := pj.get "value" }
  else none

/-- The header parameter built from one entry of `request.header`
(routes/upload.js lines 185-200): entries with a truthy `key` that is not
`authorization` or `content-type` (case-insensitively) become records with
type "string" and `required: false`.  (A truthy non-string key would throw
at `toLowerCase()` in JavaScript; such entries are skipped here.) -/
def mkHeaderParam (hj : Json) : Option PParam :=
  match hj.get "key" with
  | some (Json.str s) =>
      if s ≠ "" ∧ ¬ (["authorization", "content-type"].contains (strLower s)) then
        some
          { name := Json.str s,
            type := "string",
            inLoc := "header",
            required := false,
            description := jsOrElse (hj.get "description") (Json.str ""),
            exampleVal := hj.get "value" }
      else none
  | _ => none

/-- The request body built by the Postman importer for POST/PUT/PATCH
requests with a truthy `request.body` (routes/upload.js lines 205-238):
`raw` bodies are re-parsed as JSON with a text/plain fallback, `formdata`
and `urlencoded` bodies become key/value objects, anything else keeps the
defaults; `required` is always `true`. -/
def parsePostmanBody (b : Json) : PReqBody :=
  match b.get "mode" with
  | some (Json.str "raw") =>
      (match jsonParse (jsToStrO (b.get "raw")) with
       | some v => { contentType := "application/json", required := true, exampleVal := v }
       | none =>
           { contentType := "text/plain", required := true,
             exampleVal := (b.get "raw").getD Json.null })
  | some (Json.str "formdata") =>
      { contentType := "multipart/form-data", required := true,
        exampleVal := Json.obj ((jsArrD (b.getD "formdata" Json.null)).foldl
          (fun acc pj =>
            if jsTruthyO (pj.get "key") then
              jsAssign acc (jsToStrO (pj.get "key"))
                (jsOrElse (pj.get "value") ((pj.get "src").getD Json.null))
            else acc) []) }
  | some (Json.str "urlencoded") =>
      { contentType := "application/x-www-form-urlencoded", required := true,
        exampleVal := Json.obj ((jsArrD (b.getD "urlencoded" Json.null)).foldl
          (fun acc pj =>
            if jsTruthyO (pj.get "key") then
              jsAssign acc (jsToStrO (pj.get "key")) ((pj.get "value").getD Json.null)
            else acc) []) }
  | _ => { contentType := "application/json", required := true, exampleVal := Json.null }

/-- The endpoint candidate built by the Postman importer for one request
leaf (routes/upload.js lines 122-241): method defaulting to GET, path
extracted through `new URL` with the regular-expression fallback and
coerced to start with a slash, summary from the item name, tags from the
folder path, query and header parameters, a request body only for
POST/PUT/PATCH, and the single default 200 response. -/
def parsePostmanLeaf (item : Json) (folderPath : String) : PCandidate :=
  let request := item.getD "request" Json.null
  let method :=
    match request.get "method" with
    | some (Json.str s) => if strUpper s ≠ "" then strUpper s else "GET"
    | _ => "GET"
  let url :=
    match request.get "url" with
    | some (Json.str s) => s
    | some u =>
        (match u.get "raw" with
         | some r => if jsTruthy r then jsToStr r else ""
         | none => "")
    | none => ""
  let path0 :=
    match urlPathname url with
    | some pn => pn
    | none => postmanPathFallback url
  let path := if strStartsWith path0 "/" then path0 else "/" ++ path0
  let queryParams :=
    match request.get "url" with
    | some (Json.str _) => []
    | some u =>
        (match u.get "query" with
         | some q => if jsTruthy q then (jsArrD q).filterMap mkQueryParam else []
         | none => [])
    | none => []
  let headerParams :=
    match request.get "header" with
    | some h => if jsTruthy h then (jsArrD h).filterMap mkHeaderParam else []
    | none => []
  let body :=
    match request.get "body" with
    | some b =>
        if jsTruthy b ∧ ["POST", "PUT", "PATCH"].contains method then
          some (parsePostmanBody b)
        else none
    | none => none
  { method := method,
    path := path,
    summary := jsStrOr (item.get "name") (method ++ " " ++ path),
    description := jsOrElse (request.get "description") (Json.str ""),
    tags := if folderPath ≠ "" then [folderPath] else [],
    parameters := queryParams ++ headerParams,
    requestBody := body,
    responses := [{ statusCode := 200, description := "Successful response" }] }

/-- The recursive `parseItems` traversal of the Postman importer
(routes/upload.js lines 114-244), with explicit fuel (the importer passes a
depth bound that always suffices; fuel exhaustion yields no candidates).  A
node with a truthy `item` is a folder extending the folder path; a node
with a truthy `request` is a leaf; other nodes contribute nothing.  Folder
names are string-coerced when the path is extended (the source passes the
raw name through template-literal coercion). -/
def parsePostmanItems : Nat → Json → String → List PCandidate
  | 0, _, _ => []
  | fuel + 1, Json.arr items, folderPath =>
      listFlat
        (fun item =>
          if jsTruthyO (item.get "item") then
            parsePostmanItems fuel (item.getD "item" Json.null)
              (if folderPath ≠ "" then folderPath ++ "/" ++ jsToStrO (item.get "name")
               else jsToStrO (item.get "name"))
          else if jsTruthyO (item.get "request") then [parsePostmanLeaf item folderPath]
          else [])
        items
  | _ + 1, _, _ => []

/-- The Postman import pipeline of routes/upload.js lines 101-246: the
input is the outcome of `JSON.parse` on the uploaded file (an `error` when
the text is not JSON); a parsed collection without truthy `info` and `item`
keys is rejected as `invalidFormat`; a non-array `item` value would make
`forEach` throw, surfacing as the catch-all parse failure; otherwise the
recursive traversal produces the endpoint candidates. -/
def importPostman (input : Except String Json) : Except ImportErr (List PCandidate) :=
  match input with
  | Except.error _ => Except.error ImportErr.parseFailure
  | Except.ok collection =>
      if ¬ (jsTruthyO (collection.get "info") ∧ jsTruthyO (collection.get "item")) then
        Except.error ImportErr.invalidFormat
      else
        match collection.getD "item" Json.null with
        | Json.arr items =>
            Except.ok (parsePostmanItems (jsonDepth (Json.arr items)) (Json.arr items) "")
        | _ => Except.error ImportErr.parseFailure

/-- The `Object.keys` view of a JSON value: object keys in insertion order,
`[]` for non-objects. -/
def jsKeys : Json → List String
  | Json.obj fs => fs.map (fun kv => kv.1)
  | _ => []

/-- JavaScript `a || b` over two possibly-absent values. -/
def jsOrO (a b : Option Json) : Option Json :=
  if jsTruthyO a then a else b

/-- The status code computed by the OpenAPI importer for one response key:
`parseInt(statusCode) || 200` (routes/upload.js line 445) — the parse of a
key with no leading integer is `NaN` (falsy), and a parse result of `0` is
falsy too, so both fall back to 200; any other leading integer is kept. -/
def parseIntOr200 (k : String) : Int :=
  match jsParseInt k with
  | some n => if n = 0 then 200 else n
  | none => 200

/-- A parameter record produced by the OpenAPI importer
(routes/upload.js lines 409-419).  Raw JSON values are kept where the
source passes fields through unchecked. -/
structure OParam where
  name : Option Json
  type : Json
  inLoc : Option Json
  required : Json
  description : Json
  exampleVal : Option Json
  deriving DecidableEq, Repr

/-- A request body record produced by the OpenAPI importer
(routes/upload.js lines 423-437). -/
structure OReqBody where
  contentType : String
  required : Json
  description : Json
  schema : Option Json
  exampleVal : Option Json
  deriving DecidableEq, Repr

/-- A response record produced by the OpenAPI importer
(routes/upload.js lines 440-472).  The parsed records initialize `schema`
and `example` to JSON `null`; the synthesized default 200 record carries
neither key (`none`). -/
structure OResp where
  statusCode : Int
  description : Json
  schema : Option Json
  exampleVal : Option Json
  deriving DecidableEq, Repr

/-- An endpoint candidate produced by the OpenAPI importer
(routes/upload.js lines 395-474). -/
structure OCandidate where
  method : String
  path : String
  summary : String
  description : Json
  operationId : Option Json
  tags : Json
  deprecated : Json
  parameters : List OParam
  requestBody : Option OReqBody
  responses : List OResp
  deriving DecidableEq, Repr

/-- One parameter mapped by the OpenAPI importer (routes/upload.js lines
410-418): type from `param.schema?.type || "string"`, example from
`param.example || param.schema?.example`. -/
def mkOParam (pj : Json) : OParam :=
  { name := pj.get "name",
    type := jsOrElse ((pj.get "schema").bind (fun s => s.get "type")) (Json.str "string"),
    inLoc := pj.get "in",
    required := jsOrElse (pj.get "required") (Json.bool false),
    description := jsOrElse (pj.get "description") (Json.str ""),
    exampleVal := jsOrO (pj.get "example") ((pj.get "schema").bind (fun s => s.get "example")) }

/-- The schema/example pair the OpenAPI importer assigns to one response
record: both start as JSON `null` and are overwritten from the first
content entry when the response has truthy `content` with a truthy,
non-empty first key (routes/upload.js lines 447-459). -/
def mkORespContent (response : Json) : Option Json × Option Json :=
  let base : Option Json × Option Json := (some Json.null, some Json.null)
  match response.get "content" with
  | some content =>
      if jsTruthy content then
        match (jsKeys content).head? with
        | some ct =>
            if ct ≠ "" then
              match content.get ct with
              | some centry =>
                  if jsTruthy centry then
                    (centry.get "schema",
                     jsOrO (centry.get "example")
                       (((centry.get "examples").bind (fun e => e.get "default")).bind
                         (fun d => d.get "value")))
                  else base
              | none => base
            else base
        | none => base
      else base
  | none => base

/-- One response mapped by the OpenAPI importer for a response key
(routes/upload.js lines 441-462): status code via `parseInt(...) || 200`,
description with the empty-string fallback, then the schema/example pair. -/
def mkOResp (k : String) (response : Json) : OResp :=
  { statusCode := parseIntOr200 k,
    description := jsOrElse (response.get "description") (Json.str ""),
    schema := (mkORespContent response).1,
    exampleVal := (mkORespContent response).2 }

/-- The default response synthesized when an operation defines none
(routes/upload.js lines 467-471). -/
def defaultOResp : OResp :=
  { statusCode := 200, description := Json.str "Successful response",
    schema := none, exampleVal := none }

/-- The response entries iterated for an operation: the entries of
`operation.responses` when it is truthy, nothing otherwise
(routes/upload.js lines 440-443). -/
def respEntriesOf (operation : Json) : List (String × Json) :=
  match operation.get "responses" with
  | some r => if jsTruthy r then jsEntries r else []
  | none => []

/-- The request body mapped by the OpenAPI importer when
`operation.requestBody` is truthy (routes/upload.js lines 423-436):
content type from the first key of `requestBody.content || \x7b\x7d` with the
"application/json" fallback, then fields from that content entry. -/
def mkOReqBody (rb content : Json) : OReqBody :=
  let cts := jsKeys content
  let ct :=
    match cts.head? with
    | some c => if c ≠ "" then c else "application/json"
    | none => "application/json"
  let centry := content.get ct
  { contentType := ct,
    required := jsOrElse (rb.get "required") (Json.bool false),
    description := jsOrElse (rb.get "description") (Json.str ""),
    schema := centry.bind (fun c => c.get "schema"),
    exampleVal := jsOrO (centry.bind (fun c => c.get "example"))
      (((centry.bind (fun c => c.get "examples")).bind (fun e => e.get "default")).bind
        (fun d => d.get "value")) }

/-- The request-body stage of the OpenAPI importer for one operation:
`some rbOpt` is the normal outcome (`rbOpt` the attached body, if any);
`none` is the TypeError thrown by
`operation.requestBody.content[contentType]` when a truthy `requestBody`
has an absent or null `content` (routes/upload.js line 428). -/
def openAPIRequestBodyRes (operation : Json) : Option (Option OReqBody) :=
  match operation.get "requestBody" with
  | some rb =>
      if jsTruthy rb then
        match rb.get "content" with
        | none => none
        | some Json.null => none
        | some content => some (some (mkOReqBody rb content))
      else some none
  | none => some none

/-- The endpoint candidate built by the OpenAPI importer for one
(path, method, operation) triple (routes/upload.js lines 395-474).  The
result is `none` exactly when the source would throw: a truthy
`requestBody` whose `content` is absent or `null` makes
`operation.requestBody.content[contentType]` raise a TypeError, aborting
the entire import through the route's catch-all. -/
def mkOpenAPICandidate (path method : String) (operation : Json) : Option OCandidate :=
  match openAPIRequestBodyRes operation with
  | none => none
  | some rbOpt =>
      let responses0 := (respEntriesOf operation).map (fun kv => mkOResp kv.1 kv.2)
      some
        { method := strUpper method,
          path := path,
          summary := jsStrOr (operation.get "summary") (strUpper method ++ " " ++ path),
          description := jsOrElse (operation.get "description") (Json.str ""),
          operationId := operation.get "operationId",
          tags := jsOrElse (operation.get "tags") (Json.arr []),
          deprecated := jsOrElse (operation.get "deprecated") (Json.bool false),
          parameters :=
            (match operation.get "parameters" with
             | some ps => if jsTruthy ps then (jsArrD ps).map mkOParam else []
             | none => []),
          requestBody := rbOpt,
          responses := if responses0.isEmpty then [defaultOResp] else responses0 }

/-- The HTTP method keys the OpenAPI importer accepts
(routes/upload.js lines 381-393). -/
def openAPIMethodNames : List String :=
  ["get", "post", "put", "delete", "patch", "head", "options"]

/-- The candidates collected from the method entries of one path item,
skipping non-method keys; `none` propagates a thrown TypeError. -/
def collectOps (path : String) : List (String × Json) → Option (List OCandidate)
  | [] => some []
  | (m, op) :: rest =>
      if openAPIMethodNames.contains m then
        (mkOpenAPICandidate path m op).bind
          (fun c => (collectOps path rest).map (fun l => c :: l))
      else collectOps path rest

/-- The candidates collected from all `paths` entries in order. -/
def collectCandidates : List (String × Json) → Option (List OCandidate)
  | [] => some []
  | (p, item) :: rest =>
      (collectOps p (jsEntries item)).bind
        (fun l1 => (collectCandidates rest).map (fun l2 => l1 ++ l2))

/-- The condition and value of
`spec.servers && spec.servers[0] && spec.servers[0].url`
(routes/upload.js line 367): the `url` of the first server entry when the
chain is truthy. -/
def serversUrlOf (spec : Json) : Option Json :=
  match spec.get "servers" with
  | some servers =>
      if jsTruthy servers then
        match servers.idx 0 with
        | some s0 =>
            if jsTruthy s0 ∧ jsTruthyO (s0.get "url") then some (s0.getD "url" Json.null)
            else none
        | none => none
      else none
  | none => none

/-- The project update patch extracted by the OpenAPI importer
(routes/upload.js lines 359-374): the whole block — including the
`servers[0].url → baseUrl` part — runs only under `if (spec.info)`, and
each field is added only when present and truthy. -/
def openAPIProjectUpdates (spec : Json) : List (String × Json) :=
  match spec.get "info" with
  | some info =>
      if jsTruthy info then
        (if jsTruthyO (info.get "title") then [("name", info.getD "title" Json.null)] else []) ++
        (if jsTruthyO (info.get "description") then
           [("description", info.getD "description" Json.null)]
         else []) ++
        (if jsTruthyO (info.get "version") then [("version", info.getD "version" Json.null)] else []) ++
        (match serversUrlOf spec with
         | some u => [("baseUrl", u)]
         | none => [])
      else []
  | none => []

/-- The OpenAPI import pipeline of routes/upload.js lines 336-476: the
input is the parsed document (`none` when neither `JSON.parse` nor
`yaml.load` accepted the text); a document without a truthy `paths` key is
rejected; otherwise the project update patch and the candidate list are
produced, with a traversal-time TypeError surfacing as the catch-all parse
failure. -/
def importOpenAPI (input : Option Json) :
    Except ImportErr (List (String × Json) × List OCandidate) :=
  match input with
  | none => Except.error ImportErr.invalidFormat
  | some spec =>
      if ¬ jsTruthyO (spec.get "paths") then Except.error ImportErr.missingPaths
      else
        match collectCandidates (jsEntries (spec.getD "paths" Json.null)) with
        | none => Except.error ImportErr.parseFailure
        | some cands => Except.ok (openAPIProjectUpdates spec, cands)

/-- Occurrences of an endpoint in a list (used to state that an untagged
endpoint appears exactly once under the synthetic group). -/
def countOcc (e : Endpoint) (l : List Endpoint) : Nat :=
  l.countP (fun x => x = e)

/-- The Postman collection of the worked import example: one folder "Users"
holding one GET request to `https://api.x.com/users/\x7b\x7bid\x7d\x7d`
with the query parameter `active=true`. -/
def usersCollection : Json :=
  Json.obj
    [("info", Json.obj [("name", Json.str "Demo collection")]),
     ("item", Json.arr
       [Json.obj
         [("name", Json.str "Users"),
          ("item", Json.arr
            [Json.obj
              [("name", Json.str "Get user"),
               ("request", Json.obj
                 [("method", Json.str "GET"),
                  ("url", Json.obj
                    [("raw", Json.str "https://api.x.com/users/\x7b\x7bid\x7d\x7d"),
                     ("query", Json.arr
                       [Json.obj
                         [("key", Json.str "active"),
                          ("value", Json.str "true")]])])])]])]])]

/-- The candidate the Postman importer produces for `usersCollection`. -/
def usersCandidate : PCandidate :=
  { method := "GET",
    path := "/users/%7B%7Bid%7D%7D",
    summary := "Get user",
    description := Json.str "",
    tags := ["Users"],
    parameters :=
      [{ name := Json.str "active", type := "string", inLoc := "query",
         required := false, description := Json.str "",
         exampleVal := some (Json.str "true") }],
    requestBody := none,
    responses := [{ statusCode := 200, description := "Successful response" }] }

/-- An OpenAPI operation whose only response key is the non-numeric "2XX". -/
def op2xx : Json :=
  Json.obj [("responses", Json.obj [("2XX", Json.obj [("description", Json.str "ok")])])]

/-- An OpenAPI operation with response keys "default", "2XX" and "404". -/
def opRespKeys : Json :=
  Json.obj
    [("responses", Json.obj
      [("default", Json.obj [("description", Json.str "fallback")]),
       ("2XX", Json.obj [("description", Json.str "ok")]),
       ("404", Json.obj [("description", Json.str "missing")])])]

/-- An OpenAPI document with a first server URL but no `info` key. -/
def specNoInfo : Json :=
  Json.obj
    [("servers", Json.arr [Json.obj [("url", Json.str "https://srv.example.com")]]),
     ("paths", Json.obj [])]

/-- An OpenAPI document with both `info` fields and a first server URL. -/
def specWithInfo : Json :=
  Json.obj
    [("info", Json.obj [("title", Json.str "T"), ("version", Json.str "2.0.0")]),
     ("servers", Json.arr [Json.obj [("url", Json.str "https://srv.example.com")]]),
     ("paths", Json.obj [])]

/-- A project with a description but no base URL (one validator warning). -/
def validatorProj : Project :=
  { name := "P", description := some "described", baseUrl := none,
    version := some "1.0.0", isPublic := true }

/-- An endpoint with an empty summary, no responses, no description and no
tags: two validator issues and two endpoint warnings. -/
def validatorEndpoint : Endpoint :=
  { idStr := "e0", method := "GET", path := "/a", summary := "",
    description := "", operationId := none, tags := [], deprecated := false,
    parameters := [], requestBody := none, security := [], responses := [] }

/-- A GET endpoint without responses and with a request body (exercises the
export defaults). -/
def epNoResp : Endpoint :=
  { idStr := "e1", method := "GET", path := "/things", summary := "list",
    description := "", operationId := some "getthings", tags := ["t"],
    deprecated := false, parameters := [],
    requestBody := some
      { contentType := "application/json", required := true, description := "",
        schema := none, exampleVal := none },
    security := [], responses := [] }

/-- An endpoint tagged "a" and "b" (grouping fan-out example). -/
def epTagged : Endpoint :=
  { idStr := "t1", method := "GET", path := "/tagged", summary := "s",
    description := "", operationId := none, tags := ["a", "b"],
    deprecated := false, parameters := [], requestBody := none,
    security := [], responses := [{ statusCode := 200, description := "ok", schema := none, exampleVal := none }] }

/-- An endpoint with no tags (grouped under "General"). -/
def epUntagged : Endpoint :=
  { idStr := "t2", method := "POST", path := "/untagged", summary := "s",
    description := "", operationId := none, tags := [],
    deprecated := false, parameters := [], requestBody := none,
    security := [], responses := [{ statusCode := 200, description := "ok", schema := none, exampleVal := none }] }

/-- A GET operation that defines a request body (exercises that the OpenAPI
importer does not restrict bodies by method). -/
def opGetWithBody : Json :=
  Json.obj
    [("requestBody", Json.obj
      [("content", Json.obj
        [("application/json", Json.obj
          [("schema", Json.obj [("type", Json.str "object")])])])])]

/-- Characterization of the validator status thresholds. -/
theorem scoreStatus_spec (s : Int) :
    (scoreStatus s = "excellent" ↔ 80 ≤ s) ∧
    (scoreStatus s = "good" ↔ 60 ≤ s ∧ s < 80) ∧
    (scoreStatus s = "fair" ↔ 40 ≤ s ∧ s < 60) ∧
    (scoreStatus s = "poor" ↔ s < 40) := by
  have hEG : ("excellent" : String) ≠ "good" := by decide
  have hEF : ("excellent" : String) ≠ "fair" := by decide
  have hEP : ("excellent" : String) ≠ "poor" := by decide
  have hGF : ("good" : String) ≠ "fair" := by decide
  have hGP : ("good" : String) ≠ "poor" := by decide
  have hFP : ("fair" : String) ≠ "poor" := by decide
  unfold scoreStatus
  by_cases h1 : s ≥ 80 <;> by_cases h2 : s ≥ 60 <;> by_cases h3 : s ≥ 40 <;>
    simp [h1, h2, h3, hEG, hEF, hEP, hGF, hGP, hFP, hEG.symm, hEF.symm, hEP.symm,
      hGF.symm, hGP.symm, hFP.symm] <;> omega

/-- C2.  For every project and endpoint list the validator scores
`max(0, 100 - 10*issues.length - 2*warnings.length)` and reports status
"excellent" iff the score is at least 80, "good" iff it is in [60, 80),
"fair" iff it is in [40, 60) and "poor" iff it is below 40; the concrete
project and endpoint with exactly 2 issues and 3 warnings score 74 with
status "good". -/
theorem validator_score_and_status (p : Project) (es : List Endpoint) :
    ((validateDocs p es).score =
       max 0 (100 - 10 * ((validateDocs p es).issues.length : Int) -
         2 * ((validateDocs p es).warnings.length : Int))) ∧
    ((validateDocs p es).status = "excellent" ↔ 80 ≤ (validateDocs p es).score) ∧
    ((validateDocs p es).status = "good" ↔
       60 ≤ (validateDocs p es).score ∧ (validateDocs p es).score < 80) ∧
    ((validateDocs p es).status = "fair" ↔
       40 ≤ (validateDocs p es).score ∧ (validateDocs p es).score < 60) ∧
    ((validateDocs p es).status = "poor" ↔ (validateDocs p es).score < 40) ∧
    (validateDocs validatorProj [validatorEndpoint]).issues.length = 2 ∧
    (validateDocs validatorProj [validatorEndpoint]).warnings.length = 3 ∧
    (validateDocs validatorProj [validatorEndpoint]).score = 74 ∧
    (validateDocs validatorProj [validatorEndpoint]).status = "good" := by
  obtain ⟨h1, h2, h3, h4⟩ := scoreStatus_spec ((validateDocs p es).score)
  refine ⟨?_, h1, h2, h3, h4, by decide, by decide, by decide, by decide⟩
  show max 0 (100 - ((validateDocs p es).issues.length : Int) * 10 -
      ((validateDocs p es).warnings.length : Int) * 2) = _
  exact congrArg (max 0) (by ring)

/-- C8.  Each exporter is deterministic in the produced document body: the
body depends only on the project, the endpoint list and the explicit
version/theme arguments, while the response-time clock reaches only the
`meta` wrapper — two invocations with different clock readings produce
identical OpenAPI objects, Markdown strings and HTML strings. -/
theorem exporters_deterministic (p : Project) (es : List Endpoint)
    (version theme t1 t2 : String) :
    ((openAPIGenerate p es version t1).content = (openAPIGenerate p es version t2).content) ∧
    ((markdownGenerate p es t1).content = (markdownGenerate p es t2).content) ∧
    ((htmlGenerate p es theme t1).content = (htmlGenerate p es theme t2).content) :=
  ⟨rfl, rfl, rfl⟩

/-- C1, counterexample.  On the worked Users collection the importer
produces the path with the curly braces percent-encoded (`new URL`
percent-encodes `\x7b` and `\x7d` in pathnames), not the verbatim
`/users/\x7b\x7bid\x7d\x7d` the claim states. -/
theorem postman_users_import_counterexample :
    (importPostman (Except.ok usersCollection)).map (fun l => l.map (fun c => c.path)) =
      Except.ok ["/users/%7B%7Bid%7D%7D"] ∧
    ("/users/%7B%7Bid%7D%7D" : String) ≠ "/users/\x7b\x7bid\x7d\x7d" :=
  ⟨by decide, by decide⟩

/-- C1, amended.  The importer produces exactly one candidate with method
GET, percent-encoded path `/users/%7B%7Bid%7D%7D`, tags ["Users"], the
single string query parameter `active` (required false, example "true")
and the single default 200 response. -/
theorem postman_users_import_amended :
    importPostman (Except.ok usersCollection) = Except.ok [usersCandidate] := by
  decide

/-- C7.  A JSON object lacking the `info` key or the `item` key is rejected
by the Postman importer with the named invalid-format error, and a failed
JSON parse is rejected outright — in both cases no endpoint candidates are
returned (the importer yields an error, not a partial list). -/
theorem postman_parse_stage (fs : List (String × Json))
    (h : fs.lookup "info" = none ∨ fs.lookup "item" = none) :
    importPostman (Except.ok (Json.obj fs)) = Except.error ImportErr.invalidFormat ∧
    (∀ msg : String, importPostman (Except.error msg) = Except.error ImportErr.parseFailure) := by
  constructor
  · have hfail :
        ¬ (jsTruthyO ((Json.obj fs).get "info") = true ∧
           jsTruthyO ((Json.obj fs).get "item") = true) := by
      rcases h with h | h <;> simp [Json.get, h, jsTruthyO]
    show (if ¬ (jsTruthyO ((Json.obj fs).get "info") = true ∧
             jsTruthyO ((Json.obj fs).get "item") = true) then
            Except.error ImportErr.invalidFormat
          else _) = Except.error ImportErr.invalidFormat
    rw [if_pos hfail]
  · intro msg
    rfl

/-- C7 witness: a collection with `item` but no `info` key, and a raw text
that is not JSON. -/
theorem postman_parse_stage_witness :
    importPostman (Except.ok (Json.obj [("item", Json.arr [])])) =
      Except.error ImportErr.invalidFormat ∧
    importPostman (Except.error "not json") = Except.error ImportErr.parseFailure := by
  have h := postman_parse_stage [("item", Json.arr [])] (Or.inl rfl)
  exact ⟨h.1, h.2 "not json"⟩

/-- C3.  An endpoint with no responses is exported with exactly one
operation response keyed "200" described "Successful response", and an
imported operation with zero response entries yields a candidate whose only
response is the default 200 "Successful response". -/
theorem default_response_synthesis (e : Endpoint) (he : e.responses = [])
    (path method : String) (op : Json) (c : OCandidate)
    (hresp : respEntriesOf op = []) (hc : mkOpenAPICandidate path method op = some c) :
    ((buildOperation e).get "responses" =
      some (Json.obj [("200", Json.obj [("description", Json.str "Successful response")])])) ∧
    c.responses = [defaultOResp] := by
  constructor
  · rcases ho : e.operationId with _ | oid <;> rcases hb : e.requestBody with _ | rb <;>
      simp [buildOperation, he, ho, hb, Json.get, List.lookup]
  · unfold mkOpenAPICandidate at hc
    rw [hresp] at hc
    cases hrb : openAPIRequestBodyRes op with
    | none => rw [hrb] at hc; exact absurd hc (by simp)
    | some rbOpt =>
        rw [hrb] at hc
        have hxc := Option.some.inj hc
        subst hxc
        simp

/-- C3 witness: a GET endpoint without responses (even one carrying a
request body) and the empty operation object. -/
theorem default_response_synthesis_witness :
    ((buildOperation epNoResp).get "responses" =
      some (Json.obj [("200", Json.obj [("description", Json.str "Successful response")])])) ∧
    (mkOpenAPICandidate "/w" "get" (Json.obj [])).map (fun c => c.responses) =
      some [defaultOResp] := by
  cases hmk : mkOpenAPICandidate "/w" "get" (Json.obj []) with
  | none => exact absurd hmk (by decide)
  | some c =>
      have h := default_response_synthesis epNoResp rfl "/w" "get" (Json.obj []) c rfl hmk
      exact ⟨h.1, by simp [h.2]⟩

/-- The status code of a mapped response depends only on the response key. -/
theorem mkOResp_statusCode (k : String) (v : Json) :
    (mkOResp k v).statusCode = parseIntOr200 k :=
  rfl

/-- C4, counterexample.  The key "2XX" is not a numeric string, yet
`parseInt("2XX")` yields its leading digit 2, so the produced status code
is 2, not 200. -/
theorem response_key_parseInt_counterexample :
    (mkOpenAPICandidate "/a" "get" op2xx).map
        (fun c => c.responses.map (fun r => r.statusCode)) = some [2] ∧
    (2 : Int) ≠ 200 :=
  ⟨by decide, by decide⟩

/-- C4, amended.  Each response key of an imported operation yields one
Response in key order; its status code is `parseInt(key) || 200`: a key
whose parse is `NaN` (no leading integer, e.g. "default") or `0` becomes
200, while any other parsed leading integer is kept as is — so "2XX"
becomes 2, not 200. -/
theorem response_key_parseInt (path method : String) (op : Json)
    (fs : List (String × Json)) (c : OCandidate)
    (hresp : op.get "responses" = some (Json.obj fs)) (hne : fs ≠ [])
    (hc : mkOpenAPICandidate path method op = some c) :
    c.responses = fs.map (fun kv => mkOResp kv.1 kv.2) ∧
    (∀ k v, (jsParseInt k = none ∨ jsParseInt k = some 0) →
      (mkOResp k v).statusCode = 200) ∧
    (∀ k v n, jsParseInt k = some n → n ≠ 0 → (mkOResp k v).statusCode = n) := by
  refine ⟨?_, ?_, ?_⟩
  · have hre : respEntriesOf op = fs := by
      unfold respEntriesOf
      rw [hresp]
      simp [jsTruthy, jsEntries]
    unfold mkOpenAPICandidate at hc
    rw [hre] at hc
    cases hrb : openAPIRequestBodyRes op with
    | none => rw [hrb] at hc; exact absurd hc (by simp)
    | some rbOpt =>
        rw [hrb] at hc
        have hxc := Option.some.inj hc
        subst hxc
        have : (fs.map (fun kv => mkOResp kv.1 kv.2)).isEmpty = false := by
          cases fs with
          | nil => exact absurd rfl hne
          | cons a l => simp
        simp [this]
  · intro k v h
    rw [mkOResp_statusCode]
    unfold parseIntOr200
    rcases h with h | h <;> simp [h]
  · intro k v n h hn
    rw [mkOResp_statusCode]
    unfold parseIntOr200
    simp [h, hn]

/-- C4 witness: keys "default", "2XX" and "404" map to status codes 200, 2
and 404, and the no-leading-integer and zero cases fall back to 200. -/
theorem response_key_parseInt_witness :
    (mkOpenAPICandidate "/a" "get" opRespKeys).map
        (fun c => c.responses.map (fun r => r.statusCode)) = some [200, 2, 404] ∧
    (mkOResp "default" (Json.obj [])).statusCode = 200 ∧
    (mkOResp "0" (Json.obj [])).statusCode = 200 := by
  cases hmk : mkOpenAPICandidate "/a" "get" opRespKeys with
  | none => exact absurd hmk (by decide)
  | some c =>
      have h := response_key_parseInt "/a" "get" opRespKeys
        [("default", Json.obj [("description", Json.str "fallback")]),
         ("2XX", Json.obj [("description", Json.str "ok")]),
         ("404", Json.obj [("description", Json.str "missing")])] c rfl
        (by decide) hmk
      refine ⟨?_, h.2.1 "default" (Json.obj []) (Or.inl (by decide)),
        h.2.1 "0" (Json.obj []) (Or.inr (by decide))⟩
      calc Option.map (fun c => c.responses.map (fun r => r.statusCode)) (some c) =
          some (c.responses.map (fun r => r.statusCode)) := rfl
        _ = some [200, 2, 404] := by rw [h.1]; decide

/-- C5, counterexample.  A document whose first server URL is present but
which has no `info` key is accepted by the importer (its `paths` key is
there), yet no project updates at all are extracted — in particular no
`baseUrl`, refuting that `servers[0].url` alone suffices. -/
theorem baseurl_requires_info_counterexample :
    serversUrlOf specNoInfo = some (Json.str "https://srv.example.com") ∧
    importOpenAPI (some specNoInfo) = Except.ok ([], []) ∧
    openAPIProjectUpdates specNoInfo = [] :=
  ⟨by decide, by decide, by decide⟩

/-- C5, amended.  When the document has a truthy `info` key, the extracted
updates carry `name`, `description` and `version` exactly when the
corresponding `info` field is present and truthy, and `baseUrl` exactly
when the `servers[0].url` chain is truthy; with no `info` key nothing at
all is extracted, so `servers[0].url` alone never yields a `baseUrl`. -/
theorem openapi_project_updates (spec info : Json)
    (hinfo : spec.get "info" = some info) (ht : jsTruthy info = true) :
    ((openAPIProjectUpdates spec).lookup "name" =
      (if jsTruthyO (info.get "title") then some (info.getD "title" Json.null) else none)) ∧
    ((openAPIProjectUpdates spec).lookup "description" =
      (if jsTruthyO (info.get "description") then some (info.getD "description" Json.null)
       else none)) ∧
    ((openAPIProjectUpdates spec).lookup "version" =
      (if jsTruthyO (info.get "version") then some (info.getD "version" Json.null) else none)) ∧
    ((openAPIProjectUpdates spec).lookup "baseUrl" = serversUrlOf spec) ∧
    (∀ s : Json, s.get "info" = none → openAPIProjectUpdates s = []) := by
  have hupd : openAPIProjectUpdates spec =
      (if jsTruthyO (info.get "title") then [("name", info.getD "title" Json.null)] else []) ++
      (if jsTruthyO (info.get "description") then
         [("description", info.getD "description" Json.null)]
       else []) ++
      (if jsTruthyO (info.get "version") then [("version", info.getD "version" Json.null)] else []) ++
      (match serversUrlOf spec with
       | some u => [("baseUrl", u)]
       | none => []) := by
    unfold openAPIProjectUpdates
    rw [hinfo]
    simp [ht]
  refine ⟨?_, ?_, ?_, ?_, ?_⟩ <;>
    [skip; skip; skip; skip;
     exact fun s hs => by unfold openAPIProjectUpdates; rw [hs]] <;>
  · rw [hupd]
    by_cases h1 : jsTruthyO (info.get "title") = true <;>
      by_cases h2 : jsTruthyO (info.get "description") = true <;>
        by_cases h3 : jsTruthyO (info.get "version") = true <;>
          cases hs : serversUrlOf spec <;>
            simp [h1, h2, h3, List.lookup]

/-- C5 witness: with `info.title` and `info.version` present and a first
server URL, the updates carry name, version and baseUrl but no
description. -/
theorem openapi_project_updates_witness :
    (openAPIProjectUpdates specWithInfo).lookup "baseUrl" =
      some (Json.str "https://srv.example.com") ∧
    (openAPIProjectUpdates specWithInfo).lookup "name" = some (Json.str "T") ∧
    (openAPIProjectUpdates specWithInfo).lookup "description" = none := by
  have h := openapi_project_updates specWithInfo
    (Json.obj [("title", Json.str "T"), ("version", Json.str "2.0.0")]) (by decide) (by decide)
  refine ⟨?_, ?_, ?_⟩
  · rw [h.2.2.2.1]; decide
  · rw [h.1]; decide
  · rw [h.2.1]; decide

/-- The request-body stage attaches a body exactly when the operation has a
truthy `requestBody`. -/
theorem openAPIRequestBodyRes_isSome (op : Json) (rbOpt : Option OReqBody)
    (h : openAPIRequestBodyRes op = some rbOpt) :
    rbOpt.isSome = jsTruthyO (op.get "requestBody") := by
  unfold openAPIRequestBodyRes at h
  rcases hrb : op.get "requestBody" with _ | rb
  · simp only [hrb] at h
    have := Option.some.inj h
    subst this
    simp [jsTruthyO]
  · simp only [hrb] at h
    by_cases htr : jsTruthy rb = true
    · rw [if_pos htr] at h
      rcases hcon : rb.get "content" with _ | cv
      · rw [hcon] at h; exact absurd h (by simp)
      · rw [hcon] at h
        cases cv with
        | null => exact absurd h (by simp)
        | bool b =>
            have := Option.some.inj h
            subst this
            simp [jsTruthyO, htr]
        | num n =>
            have := Option.some.inj h
            subst this
            simp [jsTruthyO, htr]
        | str s =>
            have := Option.some.inj h
            subst this
            simp [jsTruthyO, htr]
        | arr l =>
            have := Option.some.inj h
            subst this
            simp [jsTruthyO, htr]
        | obj fs =>
            have := Option.some.inj h
            subst this
            simp [jsTruthyO, htr]
    · rw [if_neg htr] at h
      have := Option.some.inj h
      subst this
      simp [jsTruthyO, Bool.not_eq_true] at htr ⊢
      exact htr

/-- C10.  The OpenAPI importer attaches a request body exactly when the
operation defines one, whatever the method — including GET, as the final
concrete conjunct shows — while the Postman importer only ever attaches a
body for POST/PUT/PATCH and the OpenAPI exporter emits no `requestBody`
key for a method outside post/put/patch. -/
theorem openapi_request_body_any_method :
    (∀ (path method : String) (op : Json) (c : OCandidate),
       mkOpenAPICandidate path method op = some c →
       c.requestBody.isSome = jsTruthyO (op.get "requestBody")) ∧
    (∀ (item : Json) (fp : String),
       (parsePostmanLeaf item fp).requestBody.isSome = true →
       ["POST", "PUT", "PATCH"].contains (parsePostmanLeaf item fp).method = true) ∧
    (∀ e : Endpoint, ¬ (["post", "put", "patch"].contains (strLower e.method) = true) →
       (buildOperation e).get "requestBody" = none) ∧
    (mkOpenAPICandidate "/g" "get" opGetWithBody).map (fun c => c.requestBody.isSome) =
      some true := by
  refine ⟨?_, ?_, ?_, by decide⟩
  · intro path method op c hc
    unfold mkOpenAPICandidate at hc
    cases hrr : openAPIRequestBodyRes op with
    | none => rw [hrr] at hc; exact absurd hc (by simp)
    | some rbOpt =>
        rw [hrr] at hc
        have hxc := Option.some.inj hc
        subst hxc
        exact openAPIRequestBodyRes_isSome op rbOpt hrr
  · intro item fp h
    simp only [parsePostmanLeaf] at h ⊢
    rcases hb : ((item.getD "request" Json.null).get "body") with _ | b
    · simp only [hb] at h
      simp at h
    · simp only [hb] at h
      split at h
      · next hcond => exact hcond.2
      · simp at h
  · intro e hm
    have hm' : ¬ (strLower e.method = "post" ∨ strLower e.method = "put" ∨
        strLower e.method = "patch") := by simpa using hm
    push_neg at hm'
    rcases ho : e.operationId with _ | oid <;> rcases hb : e.requestBody with _ | rb <;>
      by_cases hs : e.security.length > 0 <;>
        simp [buildOperation, ho, hb, hs, hm'.1, hm'.2.1, hm'.2.2, Json.get, List.lookup]

/-- Membership through `listFlat`. -/
theorem listFlat_mem {α β : Type} (f : α → List β) (l : List α) (b : β) :
    b ∈ listFlat f l ↔ ∃ a ∈ l, b ∈ f a := by
  induction l with
  | nil => simp [listFlat]
  | cons x xs ih => simp [listFlat, ih]

/-- Every request body the Postman importer builds is required. -/
theorem parsePostmanBody_required (b : Json) : (parsePostmanBody b).required = true := by
  unfold parsePostmanBody
  repeat' split
  all_goals rfl

/-- Every leaf candidate of the Postman importer has only string, optional
parameters and, when a body is attached, a required one. -/
theorem parsePostmanLeaf_props (item : Json) (fp : String) :
    (∀ q ∈ (parsePostmanLeaf item fp).parameters, q.type = "string" ∧ q.required = false) ∧
    (∀ rb, (parsePostmanLeaf item fp).requestBody = some rb → rb.required = true) := by
  constructor
  · intro q hq
    simp only [parsePostmanLeaf] at hq
    rw [List.mem_append] at hq
    rcases hq with hq | hq
    · rcases hu : ((item.getD "request" Json.null).get "url") with _ | u
      · simp only [hu] at hq
        simp at hq
      · cases u with
        | str s => simp only [hu] at hq; simp at hq
        | null => simp only [hu] at hq; simp [Json.get] at hq
        | bool bb => simp only [hu] at hq; simp [Json.get] at hq
        | num n => simp only [hu] at hq; simp [Json.get] at hq
        | arr l => simp only [hu] at hq; simp [Json.get] at hq
        | obj fs =>
            simp only [hu] at hq
            rcases hg : (Json.obj fs).get "query" with _ | qv
            · simp only [hg] at hq
              simp at hq
            · simp only [hg] at hq
              by_cases htq : jsTruthy qv = true
              · rw [if_pos htq] at hq
                rw [List.mem_filterMap] at hq
                obtain ⟨pj, -, hmk⟩ := hq
                unfold mkQueryParam at hmk
                split at hmk
                · have := Option.some.inj hmk
                  subst this
                  exact ⟨rfl, rfl⟩
                · exact absurd hmk (by simp)
              · rw [if_neg htq] at hq
                simp at hq
    · rcases hh : ((item.getD "request" Json.null).get "header") with _ | hv
      · simp only [hh] at hq
        simp at hq
      · simp only [hh] at hq
        by_cases hth : jsTruthy hv = true
        · rw [if_pos hth] at hq
          rw [List.mem_filterMap] at hq
          obtain ⟨hj, -, hmk⟩ := hq
          unfold mkHeaderParam at hmk
          split at hmk
          · split at hmk
            · have := Option.some.inj hmk
              subst this
              exact ⟨rfl, rfl⟩
            · exact absurd hmk (by simp)
          · exact absurd hmk (by simp)
        · rw [if_neg hth] at hq
          simp at hq
  · intro rb hrb
    simp only [parsePostmanLeaf] at hrb
    rcases hb : ((item.getD "request" Json.null).get "body") with _ | bv
    · simp only [hb] at hrb
      simp at hrb
    · simp only [hb] at hrb
      split at hrb
      · have := Option.some.inj hrb
        subst this
        exact parsePostmanBody_required bv
      · exact absurd hrb (by simp)

/-- C9.  Every parameter of every candidate the Postman importer produces
(from a query entry or a header) has type "string" and `required: false`,
and every attached request body has `required: true`. -/
theorem postman_parameter_defaults :
    ∀ (fuel : Nat) (items : Json) (fp : String) (c : PCandidate),
      c ∈ parsePostmanItems fuel items fp →
      ((∀ q ∈ c.parameters, q.type = "string" ∧ q.required = false) ∧
       (∀ rb, c.requestBody = some rb → rb.required = true)) := by
  intro fuel
  induction fuel with
  | zero => intro items fp c hc; simp [parsePostmanItems] at hc
  | succ n ih =>
      intro items fp c hc
      cases items with
      | arr l =>
          rw [parsePostmanItems] at hc
          rw [listFlat_mem] at hc
          obtain ⟨item, -, hcc⟩ := hc
          by_cases h1 : jsTruthyO (item.get "item") = true
          · rw [if_pos h1] at hcc
            exact ih _ _ c hcc
          · rw [if_neg h1] at hcc
            by_cases h2 : jsTruthyO (item.get "request") = true
            · rw [if_pos h2] at hcc
              rw [List.mem_singleton] at hcc
              subst hcc
              exact parsePostmanLeaf_props item fp
            · rw [if_neg h2] at hcc
              simp at hcc
      | null => simp [parsePostmanItems] at hc
      | bool b => simp [parsePostmanItems] at hc
      | num m => simp [parsePostmanItems] at hc
      | str s => simp [parsePostmanItems] at hc
      | obj fs => simp [parsePostmanItems] at hc

/-- C9 witness: the worked Users collection, whose single candidate carries
one query parameter. -/
theorem postman_parameter_defaults_witness :
    (∀ q ∈ usersCandidate.parameters, q.type = "string" ∧ q.required = false) ∧
    (∀ rb, usersCandidate.requestBody = some rb → rb.required = true) := by
  have hmem : usersCandidate ∈
      parsePostmanItems 4 (usersCollection.getD "item" Json.null) "" := by decide
  exact postman_parameter_defaults 4 (usersCollection.getD "item" Json.null) "" usersCandidate hmem

/-- Pushing an endpoint for one tag appends it to exactly that tag's
group. -/
theorem pushToGroup_lookupD (acc : List (String × List Endpoint)) (t tg : String) (e : Endpoint) :
    ((pushToGroup acc tg e).lookup t).getD [] =
      ((acc.lookup t).getD []) ++ (if t = tg then [e] else []) := by
  induction acc with
  | nil =>
      by_cases h : t = tg
      · subst h
        simp [pushToGroup, List.lookup]
      · have hb : (t == tg) = false := beq_eq_false_iff_ne.mpr h
        simp [pushToGroup, List.lookup, hb, h]
  | cons kv rest ih =>
      obtain ⟨k, v⟩ := kv
      by_cases hk : k = tg
      · subst hk
        by_cases ht : t = k
        · subst ht
          simp [pushToGroup, List.lookup]
        · have hb : (t == k) = false := beq_eq_false_iff_ne.mpr ht
          simp [pushToGroup, List.lookup, hb, ht]
      · by_cases ht : t = k
        · subst ht
          simp [pushToGroup, List.lookup, hk]
        · have hb : (t == k) = false := beq_eq_false_iff_ne.mpr ht
          simp [pushToGroup, List.lookup, hk, hb, ih]

/-- Folding an endpoint's tag list into the grouping map appends one copy
per occurrence of the looked-up tag. -/
theorem foldPush_lookupD (tags : List String) (acc : List (String × List Endpoint))
    (t : String) (e : Endpoint) :
    (((tags.foldl (fun a tg => pushToGroup a tg e) acc).lookup t).getD []) =
      ((acc.lookup t).getD []) ++ List.replicate (tags.count t) e := by
  induction tags generalizing acc with
  | nil => simp
  | cons tg tags' ih =>
      rw [List.foldl_cons, ih (pushToGroup acc tg e), pushToGroup_lookupD]
      by_cases h : t = tg
      · subst h
        rw [List.count_cons_self, List.append_assoc]
        congr 1
        simp [List.replicate_succ]
      · rw [List.count_cons_of_ne h]
        simp [h]

/-- Closed form of one group of the Markdown grouping pass: the endpoints
in input order, each appearing once per occurrence of the tag among its
effective tags. -/
theorem groupOf_eq (es : List Endpoint) (t : String) :
    groupOf t es =
      listFlat (fun e => List.replicate ((effTags e).count t) e) es := by
  have haux : ∀ (es' : List Endpoint) (acc : List (String × List Endpoint)),
      (((es'.foldl (fun acc e => (effTags e).foldl (fun a tg => pushToGroup a tg e) acc)
            acc).lookup t).getD []) =
        ((acc.lookup t).getD []) ++
          listFlat (fun e => List.replicate ((effTags e).count t) e) es' := by
    intro es'
    induction es' with
    | nil => intro acc; simp [listFlat]
    | cons e es'' ih =>
        intro acc
        rw [List.foldl_cons, ih, foldPush_lookupD, listFlat, List.append_assoc]
  have h := haux es []
  simpa [groupOf, groupEndpoints, List.lookup] using h

/-- An untagged endpoint occurs in the "General" group exactly as often as
in the input. -/
theorem countOcc_general (es : List Endpoint) (e : Endpoint) (he : e.tags = []) :
    countOcc e (listFlat (fun x => List.replicate ((effTags x).count "General") x) es) =
      countOcc e es := by
  induction es with
  | nil => rfl
  | cons x xs ih =>
      unfold countOcc at *
      rw [listFlat, List.countP_append, ih, List.countP_cons]
      by_cases hx : x = e
      · subst hx
        have heff : effTags x = ["General"] := by unfold effTags; simp [he]
        rw [heff]
        simp [List.countP_cons]
        omega
      · have hrep : ∀ n, List.countP (fun y => decide (y = e)) (List.replicate n x) = 0 := by
          intro n
          induction n with
          | zero => rfl
          | succ m ihm => simp [List.replicate_succ, List.countP_cons, ihm, hx]
        rw [hrep]
        simp [hx]

/-- C6.  In the grouping that drives the Markdown table of contents and
body, an endpoint appears in the group of every one of its tags (fan-out),
and an endpoint with no tags appears exactly once, in the synthetic
"General" group and in no other. -/
theorem markdown_tag_grouping (es : List Endpoint) (e : Endpoint) (he : e ∈ es) :
    (∀ t ∈ e.tags, e ∈ groupOf t es) ∧
    (e.tags = [] →
      countOcc e (groupOf "General" es) = countOcc e es ∧
      (∀ t, e ∈ groupOf t es → t = "General")) := by
  constructor
  · intro t ht
    rw [groupOf_eq, listFlat_mem]
    refine ⟨e, he, ?_⟩
    have heff : effTags e = e.tags := by
      unfold effTags
      have hlen : e.tags.length > 0 := List.length_pos.mpr (List.ne_nil_of_mem ht)
      simp [hlen]
    rw [heff, List.mem_replicate]
    exact ⟨fun h0 => absurd ht (List.count_eq_zero.mp h0), rfl⟩
  · intro htags
    have heff : effTags e = ["General"] := by unfold effTags; simp [htags]
    constructor
    · rw [groupOf_eq]
      exact countOcc_general es e htags
    · intro t hmem
      rw [groupOf_eq, listFlat_mem] at hmem
      obtain ⟨x, -, hrep⟩ := hmem
      rw [List.mem_replicate] at hrep
      obtain ⟨hn, he2⟩ := hrep
      subst he2
      rw [heff] at hn
      by_contra hne
      exact hn (by simp [List.count_cons, hne])

/-- C6 witness: an endpoint tagged "a" and "b" appears under both groups,
and an untagged endpoint appears exactly once, under "General". -/
theorem markdown_tag_grouping_witness :
    epTagged ∈ groupOf "a" [epTagged, epUntagged] ∧
    epTagged ∈ groupOf "b" [epTagged, epUntagged] ∧
    countOcc epUntagged (groupOf "General" [epTagged, epUntagged]) =
      countOcc epUntagged [epTagged, epUntagged] ∧
    countOcc epUntagged [epTagged, epUntagged] = 1 := by
  have h1 := markdown_tag_grouping [epTagged, epUntagged] epTagged (by decide)
  have h2 := markdown_tag_grouping [epTagged, epUntagged] epUntagged (by decide)
  exact ⟨h1.1 "a" (by decide), h1.1 "b" (by decide), (h2.2 rfl).1, by decide⟩
